import Mathlib

namespace NMODL

/-!
# Verification of the NMODL importer (`pype9/neuron/importer/nmodl.py`)

A shallow embedding of the `NMODLImporter` compiler pipeline: the block
consumption discipline of `__init__`, the error-downgrading of the
BREAKPOINT/NET_RECEIVE extraction stages, the unit/dimension resolution
tables, the statement flattener (assignment shadowing, conditional
unwrapping into piecewise expressions, array-index mangling,
VERBATIM/printf line handling), the parameter-block extraction, and the
regime/transition synthesizer.

Python `dict`s are embedded as association lists with unique keys
(`lookup`/update semantics); exceptions are embedded as an `Except` error
monad whose error type distinguishes the exception classes the source can
raise (`Pype9ImportError`, `KeyError`, `AssertionError`,
`NotImplementedError`).
-/

/-- The exception kinds raised by the importer code: `Pype9ImportError`
(the importer's own fatal import error, `pype9/exceptions.py`), Python's
built-in `KeyError` (bare dict lookup failure), failed `assert`
statements, and `NotImplementedError`. -/
inductive Err where
  | pype9Import (msg : String)
  | keyError
  | assertionError
  | notImplemented
  | attributeError
  | valueError
  | indexError
  | typeError
  deriving Repr, DecidableEq

/-! ## C3: block-consumption completeness invariant (`__init__`)

`NMODLImporter.__init__` (nmodl.py lines 172-201) calls the declaration
extractors in a fixed order; each one `pop`s the block(s) it owns from
`self.blocks` (a dict keyed by block name), some with a default value (so
a missing block is tolerated), some without (a missing block raises
`KeyError`). After the last extractor, line 201 runs
`assert not self.blocks`. -/

/-- The block names popped by the extractors, in call order, paired with
whether the `pop` supplies a default. From nmodl.py:
`_extract_neuron_block` (line 847, no default), `_extract_units_block`
(line 704), `_extract_assigned_block` (line 734),
`_extract_procedure_and_function_blocks` (line 678: FUNCTION then
PROCEDURE), `_extract_parameter_and_constant_block` (line 752: PARAMETER
with no default, then CONSTANT), `_extract_initial_block` (line 804),
`_extract_state_block` (line 819), `_extract_linear_block` (line 1011),
`_extract_kinetic_block` (line 1029), `_extract_derivative_block`
(line 891), `_extract_breakpoint_block` (line 911),
`_extract_netreceive_block` (line 929), `_extract_independent_block`
(line 1114). -/
def extractorPops : List (String × Bool) :=
  [("NEURON", false),
   ("UNITS", true),
   ("ASSIGNED", true),
   ("FUNCTION", true),
   ("PROCEDURE", true),
   ("PARAMETER", false),
   ("CONSTANT", true),
   ("INITIAL", true),
   ("STATE", true),
   ("LINEAR", true),
   ("KINETIC", true),
   ("DERIVATIVE", true),
   ("BREAKPOINT", true),
   ("NET_RECEIVE", true),
   ("INDEPENDENT", true)]

/-- `self.blocks.pop(name)` / `self.blocks.pop(name, default)` on the set
of parsed block names: removes the name; without a default a missing name
raises `KeyError`. -/
def popBlock (name : String) (hasDefault : Bool) (blocks : List String) :
    Except Err (List String) :=
  if name ∈ blocks then .ok (blocks.erase name)
  else if hasDefault then .ok blocks
  else .error .keyError

/-- Runs the extractor `pop`s of `__init__` in order over the parsed
top-level block names. -/
def runExtractors : List String → List (String × Bool) → Except Err (List String)
  | blocks, [] => .ok blocks
  | blocks, (n, d) :: rest =>
    match popBlock n d blocks with
    | .ok blocks' => runExtractors blocks' rest
    | .error e => .error e

/-- The block-consumption skeleton of `NMODLImporter.__init__`: run every
extractor's `pop`s, then the completeness check
`assert not self.blocks` (nmodl.py line 201). -/
def importBlocksCheck (blocks : List String) : Except Err Unit :=
  match runExtractors blocks extractorPops with
  | .ok remaining => if remaining.isEmpty then .ok () else .error .assertionError
  | .error e => .error e

/-! ## C4: downgrading of BREAKPOINT / NET_RECEIVE extraction errors

`NMODLImporter.__init__` (nmodl.py lines 172-200) invokes the extraction
stages in order. Exactly two calls are wrapped in
`try: ... except Pype9ImportError` handlers (lines 184-199): the
`_extract_breakpoint_block` call and the `_extract_netreceive_block`
call. Each handler sets `self.incomplete_import = True`, appends a
warning string to `self.warnings` and continues; every other stage's
`Pype9ImportError` propagates out of the constructor. -/

/-- The extraction stage calls of `__init__` in call order, paired with
whether the call site downgrades a `Pype9ImportError` to a warning. -/
def importStages : List (String × Bool) :=
  [("_extract_defines", false),
   ("_extract_neuron_block", false),
   ("_extract_units_block", false),
   ("_extract_assigned_block", false),
   ("_extract_procedure_and_function_blocks", false),
   ("_extract_parameter_and_constant_block", false),
   ("_extract_initial_block", false),
   ("_extract_state_block", false),
   ("_create_state_variables", false),
   ("_extract_linear_block", false),
   ("_extract_kinetic_block", false),
   ("_extract_derivative_block", false),
   ("_extract_breakpoint_block", true),
   ("_extract_netreceive_block", true),
   ("_extract_independent_block", false)]

/-- Warning text appended by the `except` handlers (nmodl.py lines
188-189 and 196-197), as a function of the stage and the caught error
message. -/
def downgradeWarning (stage msg : String) : String :=
  if stage = "_extract_breakpoint_block" then
    "Could not import BREAKPOINT block (aliases will be omitted) set due to: " ++ msg
  else
    "Could not import NET_RECEIVE block (transitions will be omitted) due to: " ++ msg

/-- The diagnostics the importer instance accumulates: the ordered
append-only `self.warnings` list and the `self.incomplete_import` flag
(nmodl.py lines 117-118). -/
structure ImportDiag where
  warnings : List String
  incompleteImport : Bool
  deriving Repr, DecidableEq

/-- The error-handling skeleton of `__init__`: run the stages in order,
where `raises stage` gives the message of the `Pype9ImportError` the
stage raises on this input (or `none`). A raising stage whose call site
is wrapped appends its warning and sets `incomplete_import`; any other
raising stage aborts the constructor. -/
def runStages (raises : String → Option String) : Except Err ImportDiag :=
  importStages.foldlM
    (fun diag stage =>
      match raises stage.1 with
      | none => .ok diag
      | some msg =>
        if stage.2 then
          .ok { warnings := diag.warnings ++ [downgradeWarning stage.1 msg],
                incompleteImport := true }
        else .error (.pype9Import msg))
    ⟨[], false⟩

/-- A run in which only the named stage raises (with message `msg`). -/
def raisesOnly (stage msg : String) : String → Option String :=
  fun s => if s = stage then some msg else none

/-! ## C6: unit resolution failure for unrecognised dimensionality strings

`_units2SI` (nmodl.py lines 1628-1641) reduces a unit string through the
external `quantities` library to an SI dimensionality string plus a
power of ten (`None` standing for dimensionless); since that reduction
lives in an external package it is a parameter of the embedding. The
fixed table `_SI_to_dimension` (lines 51-74) maps dimensionality strings
to the closed catalog of `nineml` dimensions. `_units2nineml_units`
(lines 1643-1652) looks the reduced string up in the table and raises
`Pype9ImportError("Unrecognised dimension from units ...")` on a miss,
then indexes `_SI_to_nineml_units` (a plain dict lookup, `KeyError` on a
miss); `_units2dimension` (lines 1654-1657) performs a plain
`_SI_to_dimension[dim_str]` lookup, so a miss there raises a bare
`KeyError`. -/

/-- The closed catalog of `nineml` dimensions the table's values draw
from, one constructor per distinct value expression in
`_SI_to_dimension` (nmodl.py lines 51-74). -/
inductive Dimension where
  | conductance
  | timePow2
  | voltage
  | voltagePerTime
  | currentTimePerVoltage
  | concentration
  | currentDensity
  | time
  | temperature
  | flux
  | massPerCharge
  | length
  | conductanceDensity
  | current
  | currentPerTime
  | perTime
  | chargeDensity
  | perTimePerConcentration
  | substancePerArea
  | charge
  | perVoltage
  | energyPerTemperature
  | dimensionless
  deriving Repr, DecidableEq

/-- `_SI_to_dimension` (nmodl.py lines 51-74): SI dimensionality string
(with `none` embedding the Python key `None`) to `nineml` dimension. -/
def SI_to_dimension : List (Option String × Dimension) :=
  [(some "m/s", .conductance),
   (some "s**2", .timePow2),
   (some "kg*m**2/(s**3*A)", .voltage),
   (some "kg*m**2/(s**4*A)", .voltagePerTime),
   (some "s**4*A**2/(kg*m**2)", .currentTimePerVoltage),
   (some "mol/m**3", .concentration),
   (some "A/m**2", .currentDensity),
   (some "s", .time),
   (some "K", .temperature),
   (some "kg/(m**3*s)", .flux),
   (some "1/(s*A)", .massPerCharge),
   (some "m", .length),
   (some "s**3*A**2/(kg*m**4)", .conductanceDensity),
   (some "A", .current),
   (some "A/s", .currentPerTime),
   (some "s**3*A**2/(kg*m**2)", .conductance),
   (some "1/s", .perTime),
   (some "s*A/m**3", .chargeDensity),
   (some "m**3/(s*mol)", .perTimePerConcentration),
   (some "mol/m**2", .substancePerArea),
   (some "s*A", .charge),
   (some "s**3*A/(kg*m**2)", .perVoltage),
   (some "kg*m**2/(s**2*K)", .energyPerTemperature),
   (none, .dimensionless)]

/-- `_units2nineml_units` (nmodl.py lines 1643-1652). `reduce` embeds
`_units2SI` (the reduction through the external `quantities` library;
it raises e.g. `LookupError` on unparseable unit strings, embedded as an
error result); `ninemlUnits` embeds `_SI_to_nineml_units` (the
dimension-and-power to unit-name dict built from the `nineml` units
catalog at lines 77-79, whose bare indexing raises `KeyError` on a
miss). -/
def units2nineml_units (reduce : String → Except Err (Option String × Int))
    (ninemlUnits : List ((Dimension × Int) × String)) (units : String) :
    Except Err String := do
  let (dimStr, power) ← reduce units
  match SI_to_dimension.lookup dimStr with
  | none =>
    throw (.pype9Import ("Unrecognised dimension from units " ++ units))
  | some dim =>
    match ninemlUnits.lookup (dim, power) with
    | none => throw .keyError
    | some u => pure u

/-- `_units2dimension` (nmodl.py lines 1654-1657): the dimension entry
point: a plain `_SI_to_dimension[dim_str]` dict lookup whose miss raises
`KeyError`, with no `Pype9ImportError` wrapping. -/
def units2dimension (reduce : String → Except Err (Option String × Int))
    (units : String) : Except Err Dimension := do
  let (dimStr, _) ← reduce units
  match SI_to_dimension.lookup dimStr with
  | none => throw .keyError
  | some dim => pure dim

/-- Whether an embedded computation raised `Pype9ImportError`. -/
def raisedPype9Import {α : Type} : Except Err α → Bool
  | .error (.pype9Import _) => true
  | _ => false

/-- A concrete `_units2SI` behaviour: the unit string `candela` reduces
through `quantities` to the SI dimensionality string `cd` (power 0),
which is not a key of `_SI_to_dimension`. -/
def reduceCandela : String → Except Err (Option String × Int) :=
  fun u => if u = "candela" then .ok (some "cd", 0) else .error .keyError

/-! ## String machinery of the flattener

The flattener manipulates statements as raw strings, using compiled
regular expressions (nmodl.py lines 35-48). The embeddings below are
character-list scanners with the same semantics as the specific regex
operations the source performs (all of them on patterns whose character
classes are disjoint from the following literal, so the scans need no
backtracking, except where noted). -/

/-- Python's regex class `\w`: letters, digits and underscore. -/
def isWordChar (c : Char) : Bool := c.isAlphanum || c = '_'

/-- `re.sub(r'\b(old)\b', new, expr)` for `old` a nonempty word-character
string (`_subs_variable`, nmodl.py line 1548): replaces every maximal
word-character run equal to `old` by `new` (with `old` all word
characters, a `\b old \b` occurrence is exactly a maximal run). The
`fuel` argument only drives structural recursion; `substToken` supplies
`l.length`, which always suffices since every step consumes at least one
character. -/
def substTokenFuel (old new : List Char) : Nat → List Char → List Char
  | 0, l => l
  | _ + 1, [] => []
  | fuel + 1, c :: cs =>
    if isWordChar c then
      let run := c :: cs.takeWhile isWordChar
      let rest := cs.dropWhile isWordChar
      (if run = old then new else run) ++ substTokenFuel old new fuel rest
    else
      c :: substTokenFuel old new fuel cs

def substTokenAux (old new l : List Char) : List Char :=
  substTokenFuel old new l.length l

/-- `_subs_variable(old, new, expr)` (nmodl.py lines 1540-1552) on a
string expression: parenthesizes `new` when it contains a non-word
character (`notword_re.search`), then performs the word-bounded
replacement. The side effect on the `self.dimensions` bookkeeping dict
(lines 1550-1551) is not read by any modelled claim and is elided. -/
def subsVariable (old new expr : String) : String :=
  let newL := if new.data.any (fun c => !isWordChar c)
              then '(' :: (new.data ++ [')'])
              else new.data
  ⟨substTokenAux old.data newL expr.data⟩

/-- `_substitute_functions` (nmodl.py lines 1596-1601): applies the
word-bounded function-name substitutions `_function_substitutions`
(line 103: `fabs` → `abs`). -/
def substitute_functions (rhs : String) : String :=
  ⟨substTokenAux "fabs".data "abs".data rhs.data⟩

/-- One attempt to match ` *= *` at the current position for
`assign_re = (?<![\>\<]) *= *` (nmodl.py line 37): greedy spaces, `=`,
greedy spaces; returns the remainder after the match. (The space class
and `=` are disjoint, so greediness needs no backtracking.) -/
def matchEqHere (l : List Char) : Option (List Char) :=
  match l.dropWhile (· = ' ') with
  | '=' :: rest => some (rest.dropWhile (· = ' '))
  | _ => none

/-- Leftmost `assign_re` match: scans positions left to right; a match
may start at a position only when the preceding character is not `>` or
`<` (the lookbehind). Returns the text before the match and the
remainder after it. -/
def findAssign : Option Char → List Char → Option (List Char × List Char)
  | _, [] => none
  | prev, c :: cs =>
    if (prev ≠ some '>' ∧ prev ≠ some '<') then
      match matchEqHere (c :: cs) with
      | some rest => some ([], rest)
      | none =>
        match findAssign (some c) cs with
        | some (left, rest) => some (c :: left, rest)
        | none => none
    else
      match findAssign (some c) cs with
      | some (left, rest) => some (c :: left, rest)
      | none => none

/-- `assign_re.split(line)` (used at nmodl.py lines 1172 and 1257 and
754): repeatedly splits at the leftmost ` *= *` match not preceded by
`>` or `<`. After a match the scan resumes after the consumed spaces, so
the continuation's lookbehind character is a space or `=`. -/
def assignSplitFuel : Nat → Option Char → List Char → List (List Char)
  | 0, _, l => [l]
  | fuel + 1, prev, l =>
    match findAssign prev l with
    | some (left, rest) => left :: assignSplitFuel fuel (some '=') rest
    | none => [l]

def assignSplitList (prev : Option Char) (l : List Char) : List (List Char) :=
  assignSplitFuel l.length prev l

/-- `assign_re.split` on a `String`. -/
def assignSplit (line : String) : List String :=
  (assignSplitList none line.data).map (fun l => ⟨l⟩)

/-- `getitem_re.sub(r'\1__elem\2', line)` (nmodl.py lines 44 and 1170)
with `getitem_re = (\w+)\[(\d+)\]`: left-to-right scan replacing each
leftmost non-overlapping match by the word run, `__elem`, and the digit
run concatenated. A match can only start at the head of a maximal word
run (leftmost rule), and a run not followed by `[digits]` contains no
match start, so the scan jumps run by run. Fuel is `l.length` via
`getitemSub`; every step consumes at least one character. -/
def getitemFuel : Nat → List Char → List Char
  | 0, l => l
  | _ + 1, [] => []
  | fuel + 1, c :: cs =>
    if isWordChar c then
      let run := c :: cs.takeWhile isWordChar
      let rest := cs.dropWhile isWordChar
      match rest with
      | '[' :: r2 =>
        let ds := r2.takeWhile Char.isDigit
        if ds.isEmpty then run ++ '[' :: getitemFuel fuel r2
        else
          match r2.dropWhile Char.isDigit with
          | ']' :: r3 => run ++ ("__elem".data ++ ds) ++ getitemFuel fuel r3
          | _ => run ++ '[' :: getitemFuel fuel r2
      | _ => run ++ getitemFuel fuel rest
    else
      c :: getitemFuel fuel cs

def getitemSub (l : List Char) : List Char :=
  getitemFuel l.length l

/-- The array-index mangling rewrite applied to a statement line before
parsing (nmodl.py line 1170). -/
def getitemSubStr (line : String) : String :=
  ⟨getitemSub line.data⟩

/-! ## Association-list embedding of Python dicts -/

/-- `d[k] = v`: replaces the value at an existing key in place, appends
a new key at the end (insertion-ordered dict update). -/
def setKey {κ α : Type} [DecidableEq κ] : List (κ × α) → κ → α → List (κ × α)
  | [], k, v => [(k, v)]
  | (k', v') :: rest, k, v =>
    if k' = k then (k, v) :: rest else (k', v') :: setKey rest k v

/-- `k in d`. -/
def containsKey {κ α : Type} [BEq κ] (m : List (κ × α)) (k : κ) : Bool :=
  (m.lookup k).isSome

/-! ## C10: default-less PARAMETER/CONSTANT declarations and `celsius`/`v`

`_extract_parameter_and_constant_block` (nmodl.py lines 750-800) splits
each line on `assign_re`; a line with no `=` (`len(parts) == 1`) is
matched against `(\w+) +\(([\w\/\*\^]+)\)` and, unless the name is
`celsius` or `v`, recorded in `self.properties` with value `float('nan')`
and the sanitized units (lines 755-763). The `len(parts) == 2` branch
(default values, valid ranges, and the inbuilt-constant reclassification
through the external `quantities` library's float arithmetic) is outside
this embedding; the embedded function returns `none` for it. -/

/-- The character class `[0-9\.]` of the letter-digit sanitization regex. -/
def isDigitDot (c : Char) : Bool := c.isDigit || c = '.'

/-- `re.sub(r'([a-zA-Z])([0-9\.]+)', r'\1^\2', units)` (nmodl.py line
1668): inserts `^` between a letter and a following digit/dot run. -/
def letterDigitFuel : Nat → List Char → List Char
  | 0, l => l
  | _ + 1, [] => []
  | fuel + 1, c :: cs =>
    if c.isAlpha then
      let ds := cs.takeWhile isDigitDot
      if ds.isEmpty then c :: letterDigitFuel fuel cs
      else c :: '^' :: (ds ++ letterDigitFuel fuel (cs.dropWhile isDigitDot))
    else
      c :: letterDigitFuel fuel cs

/-- `re.sub(r'(?<=\d) +(?=\w)', r'*', units)` (nmodl.py line 1672):
replaces a space run between a digit and a word character by `*` (the
lookarounds are zero-width, only the spaces are consumed). -/
def digitSpaceFuel : Nat → Option Char → List Char → List Char
  | 0, _, l => l
  | _ + 1, _, [] => []
  | fuel + 1, prev, c :: cs =>
    if c = ' ' && (match prev with | some p => p.isDigit | none => false) then
      let sp := cs.takeWhile (· = ' ')
      let rest := cs.dropWhile (· = ' ')
      match rest with
      | [] => c :: sp
      | r :: _ =>
        if isWordChar r then '*' :: digitSpaceFuel fuel (some ' ') rest
        else c :: (sp ++ digitSpaceFuel fuel (some ' ') rest)
    else
      c :: digitSpaceFuel fuel (some c) cs

/-- Python `str.strip()` on a character list: whitespace removed from
both ends. -/
def stripList (l : List Char) : List Char :=
  ((l.dropWhile Char.isWhitespace).reverse.dropWhile Char.isWhitespace).reverse

/-- Python `str.split(sep)` for a single-character separator, on a
character list. -/
def splitOnChar (sep : Char) : List Char → List (List Char)
  | [] => [[]]
  | c :: cs =>
    let rest := splitOnChar sep cs
    if c = sep then [] :: rest
    else
      match rest with
      | r :: rs => (c :: r) :: rs
      | [] => [[c]]

/-- `_sanitize_units` (nmodl.py lines 1659-1673). The `units.split('-')`
unpacking into exactly two names raises `ValueError` when the string has
more than one `-`. -/
def sanitizeUnits (units : String) : Except Err String :=
  if units = "1" then .ok "dimensionless"
  else
    let u := if units = "mv" then "mV" else units
    let u := stripList u.data
    let u := match u with
             | '/' :: _ => '1' :: u
             | _ => u
    let u := letterDigitFuel u.length u
    let dashed : Except Err (List Char) :=
      if u.contains '-' then
        match splitOnChar '-' u with
        | [b, e] => .ok ('(' :: b ++ ')' :: '/' :: e)
        | _ => .error .valueError
      else .ok u
    match dashed with
    | .ok u2 => .ok ⟨digitSpaceFuel u2.length none u2⟩
    | .error e => .error e

/-- The unit-character class `[\w\/\*\^]` of the parameter-line regex. -/
def isUnitChar (c : Char) : Bool :=
  isWordChar c || c = '/' || c = '*' || c = '^'

/-- `re.match(r'(\w+) +\(([\w\/\*\^]+)\)', line)` (nmodl.py line 756):
anchored match of a name, at least one space, and parenthesized units;
returns the two groups. -/
def parseDefaultlessParam (line : String) : Option (String × String) :=
  let l := line.data
  let name := l.takeWhile isWordChar
  if name.isEmpty then none
  else
    let r1 := l.dropWhile isWordChar
    let sp := r1.takeWhile (· = ' ')
    if sp.isEmpty then none
    else
      match r1.dropWhile (· = ' ') with
      | '(' :: r2 =>
        let u := r2.takeWhile isUnitChar
        if u.isEmpty then none
        else
          match r2.dropWhile isUnitChar with
          | ')' :: _ => some (⟨name⟩, ⟨u⟩)
          | _ => none
      | _ => none

/-- The value recorded for a property: `float('nan')` for a default-less
declaration (nmodl.py line 763), or a parsed literal in the
default-value branch (not embedded). -/
inductive PVal where
  | nan
  | lit (s : String)
  deriving Repr, DecidableEq

/-- The default-less branch of `_extract_parameter_and_constant_block`
(nmodl.py lines 753-763): a line with no `=` is matched (a failed match
makes `match.group(1)` raise `AttributeError`), its units sanitized, and
the name recorded with value NaN unless it is `celsius` or `v`. A line
with an `=` belongs to the default-value branch, which is outside this
embedding (`none`). -/
def extract_parameter_defaultless
    (properties : List (String × (PVal × String))) (line : String) :
    Except Err (Option (List (String × (PVal × String)))) :=
  if (assignSplit line).length = 1 then
    match parseDefaultlessParam line with
    | none => .error .attributeError
    | some (name, units) =>
      match sanitizeUnits units with
      | .error e => .error e
      | .ok u =>
        if name = "celsius" ∨ name = "v" then .ok (some properties)
        else .ok (some (setKey properties name (.nan, u)))
  else .ok none

/-! ## The statement flattener (`_extract_stmts_block` and friends)

`_extract_stmts_block` (nmodl.py lines 1121-1254) walks the lines of a
statement block and builds `statements`, a dict from left-hand-side
symbol to right-hand side. A right-hand side is a plain expression
string, a list of `(expression, test)` pieces produced by unwrapping a
conditional block, or — for the synthetic `__INBUILT_PROC_...` entries —
the argument-string list of a built-in procedure call. -/

/-- A value of the flattener's statement dict. -/
inductive Rhs where
  | expr (s : String)
  | pieces (ps : List (String × String))
  | procArgs (args : List String)
  deriving Repr, DecidableEq

/-- The flattener's statement dict. -/
abbrev Stmts := List (String × Rhs)

/-- `_extract_function_calls` (nmodl.py lines 1299-1339) in the modelled
fragment: the flattener fragment embedded here carries an empty
`self.functions` table (sources without FUNCTION blocks), so every
candidate call found by the regex search fails its `self.functions[name]`
lookup with `KeyError` (caught at line 1336) and the loop exits with the
expression unchanged. -/
def extract_function_calls (expr : String) : String := expr

/-- `str.replace(pat, rep)`: replace all non-overlapping occurrences,
left to right (used for the used-units stripping at nmodl.py lines
1295-1296). Fuel is the input length; each step consumes at least one
character for nonempty patterns. -/
def replaceFuel (pat rep : List Char) : Nat → List Char → List Char
  | 0, l => l
  | _ + 1, [] => []
  | fuel + 1, c :: cs =>
    if pat.isPrefixOf (c :: cs) then
      rep ++ replaceFuel pat rep fuel (List.drop pat.length (c :: cs))
    else
      c :: replaceFuel pat rep fuel cs

/-- Strips `(units)` occurrences for every registered unit alias
(`self.used_units`) from a right-hand side (nmodl.py lines 1293-1296). -/
def stripUnitsRhs (usedUnits : List String) (rhs : String) : String :=
  usedUnits.foldl
    (fun e u =>
      let pat := ("(" ++ u ++ ")").data
      ⟨replaceFuel pat [] e.data.length e.data⟩)
    rhs

/-- The candidate temporary names tried by the shadowing rename
(nmodl.py lines 1271-1275): `lhs__tmp`, then `lhs__tmp1`,
`lhs__tmp2`, …. -/
def tmpCandidate (lhs : String) : Nat → String
  | 0 => lhs ++ "__tmp"
  | n + 1 => lhs ++ "__tmp" ++ toString (n + 1)

/-- The `while tmp_lhs in statements` search for a fresh temporary name.
Searching the first `length + 1` candidates is exhaustive: the
candidates are pairwise distinct, so one of the first `length + 1` is
not among the `length` keys and the Python loop always stops within
them. -/
def freshTmp (lhs : String) (statements : Stmts) : Option String :=
  ((List.range (statements.length + 1)).map (tmpCandidate lhs)).find?
    (fun c => !containsKey statements c)

/-- The back-substitution of the renamed temporary into a previously
recorded right-hand side (nmodl.py lines 1280-1292): a plain expression
and both components of every piece are substituted; an inbuilt-proc
argument list would be unpacked by `for expr, test in r` element by
element, which raises for its argument strings (embedded as a
`typeError`). -/
def subsRhsShadow (old new : String) : Rhs → Except Err Rhs
  | .expr s => .ok (.expr (subsVariable old new s))
  | .pieces ps =>
    .ok (.pieces (ps.map (fun p => (subsVariable old new p.1, subsVariable old new p.2))))
  | .procArgs _ => .error .typeError

/-- Applies a fallible transformation to every value of the statement
dict, in order, stopping at the first failure. -/
def mapValuesExcept (f : Rhs → Except Err Rhs) : Stmts → Except Err Stmts
  | [] => .ok []
  | (k, v) :: rest =>
    match f v with
    | .error e => .error e
    | .ok v' =>
      match mapValuesExcept f rest with
      | .error e => .error e
      | .ok rest' => .ok ((k, v') :: rest')

/-- `_extract_assignment` (nmodl.py lines 1256-1297): split the line on
`assign_re` (unpacking into exactly two parts), apply the argument
substitutions, inline function calls, append the suffix to the left-hand
side (with a trailing `_` when the result is a builtin symbol —
`is_builtin_symbol` comes from the external `nineml` expression
utilities and is a parameter here). If the (suffixed) left-hand side is
already defined, rename the prior definition to a fresh temporary,
substitute the temporary into the new right-hand side and into every
previously recorded right-hand side (including piece lists), and only
then record the new definition; finally strip `(units)` annotations. -/
def extract_assignment (usedUnits : List String) (isBuiltin : String → Bool)
    (line : String) (statements : Stmts) (subs : List (String × String))
    (suffix : String) : Except Err (Stmts × List (String × String)) :=
  match assignSplit line with
  | [lhs, rhs0] =>
    let rhs1 := subs.foldl (fun e p => subsVariable p.1 p.2 e) rhs0
    let rhs2 := extract_function_calls rhs1
    let lhsW := if isBuiltin (lhs ++ suffix) then lhs ++ suffix ++ "_" else lhs ++ suffix
    let subs1 := if suffix ≠ "" then setKey subs lhs lhsW else subs
    if containsKey statements lhsW then
      match freshTmp lhsW statements, statements.lookup lhsW with
      | some tmp, some oldRhs =>
        let st1 := setKey statements tmp oldRhs
        let rhs3 := subsVariable lhsW tmp rhs2
        match mapValuesExcept (subsRhsShadow lhsW tmp) st1 with
        | .ok st2 => .ok (setKey st2 lhsW (.expr (stripUnitsRhs usedUnits rhs3)), subs1)
        | .error e => .error e
      | _, _ => .error .keyError
    else
      .ok (setKey statements lhsW (.expr (stripUnitsRhs usedUnits rhs2)), subs1)
  | _ => .error .valueError

/-- Character-list prefix test, recursing on the pattern first (so that
an exhausted pattern succeeds without inspecting the rest of the
input). -/
def listStarts : List Char → List Char → Bool
  | [], _ => true
  | p :: ps, l =>
    match l with
    | [] => false
    | c :: cs => p == c && listStarts ps cs

/-- `line.startswith(pre)`. -/
def strStarts (line pre : String) : Bool :=
  listStarts pre.data line.data

/-- `re.match(r'(\w+) *\((.*)\)', line)` (nmodl.py line 1176): a name,
optional spaces, `(`, then a greedy group extending to the last `)` of
the line. -/
def procCallMatch (line : String) : Option (String × String) :=
  let l := line.data
  let name := l.takeWhile isWordChar
  if name.isEmpty then none
  else
    match (l.dropWhile isWordChar).dropWhile (· = ' ') with
    | '(' :: r2 =>
      if r2.contains ')' then
        some (⟨name⟩, ⟨(r2.reverse.dropWhile (· ≠ ')')).tail.reverse⟩)
      else none
    | _ => none

/-- `_iterate_block` (nmodl.py lines 1675-1681): strip each line, cut a
trailing `:` comment, replace tabs by spaces, and drop empty lines. -/
def iterate_block (block : List String) : List String :=
  (block.map (fun line =>
    let stripped := stripList line.data
    let noComment := (splitOnChar ':' stripped).headD []
    (⟨noComment.map (fun c => if c = '\t' then ' ' else c)⟩ : String))).filter
    (fun l => l ≠ "")

/-- The line-dispatch loop of `_extract_stmts_block` (nmodl.py lines
1131-1254), embedded for the fragment exercised by the claims: simple
statement blocks flattened at top level (`subs = {}`, `suffix = ''`, no
FUNCTION/PROCEDURE blocks). TABLE consumption, conditional/transition
sub-blocks (handled through `extract_conditional_core` below),
`state_discontinuity` and user-procedure inlining are outside the
fragment; hitting one of them returns `none` rather than inventing an
outcome. Inside the fragment the dispatch is the source's: skip
`LOCAL`/`UNITSON`/`UNITSOFF` lines (a trailing `LOCAL` raises), raise
`Pype9ImportError` on a `VERBATIM` line, skip a `printf` line, rewrite
array indexing, then split on `assign_re` and either record an
assignment, raise on `for`/`while`, or raise on an unrecognised
statement. -/
def extract_stmts_lines (usedUnits : List String) (isBuiltin : String → Bool) :
    List String → Stmts → Option (Except Err Stmts)
  | [], statements => some (.ok statements)
  | line :: rest, statements =>
    if strStarts line "TABLE" then none
    else if strStarts line "LOCAL" || line = "UNITSON" || line = "UNITSOFF" then
      match rest with
      | [] =>
        if strStarts line "LOCAL" then
          some (.error (.pype9Import
            "LOCAL statements need to appear at the start of the statement block"))
        else some (.ok statements)
      | _ => extract_stmts_lines usedUnits isBuiltin rest statements
    else if strStarts line "VERBATIM" then
      some (.error (.pype9Import "Cannot parse VERBATIM block"))
    else if strStarts line "printf" then
      extract_stmts_lines usedUnits isBuiltin rest statements
    else
      let line2 := getitemSubStr line
      let parts := assignSplit line2
      if parts.length = 1 || line2.data.contains '{' then
        match procCallMatch line2 with
        | none =>
          some (.error (.pype9Import ("Unrecognised statement on line " ++ line2)))
        | some (name, _) =>
          if name = "if" then none
          else if name = "for" ∨ name = "while" then
            some (.error (.pype9Import ("Cannot represent " ++ name ++ " statements in 9ML")))
          else none
      else if parts.length = 2 then
        match extract_assignment usedUnits isBuiltin line2 statements [] "" with
        | .ok (st', _) => extract_stmts_lines usedUnits isBuiltin rest st'
        | .error e => some (.error e)
      else
        some (.error (.pype9Import ("More than one = found on line " ++ line2)))

/-- `_extract_stmts_block` on a raw block: normalize the lines through
`_iterate_block`, then run the dispatch loop with an empty statement
dict. -/
def extract_stmts_block (usedUnits : List String) (isBuiltin : String → Bool)
    (block : List String) : Option (Except Err Stmts) :=
  extract_stmts_lines usedUnits isBuiltin (iterate_block block) []

/-- Whether a (fragment-internal) flattening outcome is a success. -/
def resultIsOk : Option (Except Err Stmts) → Bool
  | some (.ok _) => true
  | _ => false

/-! ## Conditional blocks (`_extract_conditional_block`, nmodl.py 1341-1482)

`_extract_conditional_block` first drives `_matching_braces` over the
`if`/`else if`/`else` sub-blocks, recursively flattening each sub-block
into a `(test, stmts)` pair (lines 1343-1371; the final `else` branch
gets the test `'True'`). The embedding below starts from that list of
parsed branches — `conditionalStmts` — and embeds the unwrap logic of
lines 1372-1482, which is what the claims about piecewise construction
concern. -/

/-- The parts of the importer state the conditional unwrap reads or
writes: the key sets of `self.properties`, `self.state_variables` and
`self.dimensions`. -/
structure FlattenCtx where
  properties : List String
  stateVariables : List String
  dimensions : List String
  deriving Repr, DecidableEq

/-- `d.pop(k)` / key removal. -/
def removeKey {κ α : Type} [DecidableEq κ] : List (κ × α) → κ → List (κ × α)
  | [], _ => []
  | (k', v') :: rest, k =>
    if k' = k then rest else (k', v') :: removeKey rest k

/-- `_unwrap_piecewise_stmt` (nmodl.py lines 1521-1534): flattens a
nested piecewise right-hand side into `(expression, test)` pieces,
conjoining tests of inner pieces (`(outer) & (inner)`) except for inner
`'True'` guards, which take the outer test alone; a plain expression
becomes one piece under the given test. Piece values are strings; an
inbuilt-proc argument list reaching here would be unpacked pairwise and
raise (embedded as `typeError`), but the caller filters those out. -/
def unwrap_piecewise_stmt (stmt : Rhs) (test : String)
    (pieces : List (String × String)) : Except Err (List (String × String)) :=
  match stmt with
  | .expr s => .ok (pieces ++ [(s, test)])
  | .pieces ps =>
    .ok (ps.foldl
      (fun acc p =>
        let combined := if p.2 = "True" then test
                        else "(" ++ test ++ ") & (" ++ p.2 ++ ")"
        acc ++ [(p.1, combined)])
      pieces)
  | .procArgs _ => .error .typeError

/-- The Python slice `lhs[:-len(suffix)]`: drops the suffix length from
the right — and, for an empty suffix, `lhs[:-0]` is the empty string. -/
def pyDropSuffix (lhs suffix : String) : String :=
  if suffix.data.length = 0 then ""
  else ⟨lhs.data.take (lhs.data.length - suffix.data.length)⟩

/-- The per-branch escape name
`'{}__branch{}{}'.format(lhs[:-len(suffix)] if suffix else lhs, i, suffix)`
(nmodl.py lines 1401-1403). -/
def branchName (lhs : String) (suffix : String) (i : Nat) : String :=
  (if suffix = "" then lhs else pyDropSuffix lhs suffix)
    ++ "__branch" ++ toString i ++ suffix

/-- `_subs_variable` as used inside the conditional unwrap (nmodl.py
line 1411): the `isinstance(expr, basestring)` guard substitutes into
plain expressions only and returns piece lists and argument lists
unchanged. -/
def subsVariableRhs (old new : String) : Rhs → Rhs
  | .expr s => .expr (subsVariable old new s)
  | r => r

/-- `stmts[lhs][-1] = (rhs[-1] + ' & ' + test) if rhs else test`
(nmodl.py line 1399): appends the branch test to the last argument of an
inbuilt-proc entry; an empty argument list raises `IndexError` from the
`[-1]` assignment, a non-list value raises `TypeError`. -/
def appendTestToProcArgs (test : String) : Rhs → Except Err Rhs
  | .procArgs args =>
    match args.getLast? with
    | some last => .ok (.procArgs (args.dropLast ++ [last ++ " & " ++ test]))
    | none => .error .indexError
  | _ => .error .typeError

/-- `rhs = stmts.pop(old); stmts[new] = rhs` (nmodl.py lines 1413-1414). -/
def renameKey (st : Stmts) (old new : String) : Except Err Stmts :=
  match st.lookup old with
  | some v => .ok (setKey (removeKey st old) new v)
  | none => .error .keyError

/-- One iteration of the branch-numbering loop (nmodl.py lines
1386-1420): default missing state assignments to a definition popped
from the enclosing statement map (or the bare name), append the branch
test to inbuilt-proc entries, rename every non-common left-hand side to
its `__branchN` escape (substituting the new name into the branch's
plain expressions), and copy the escaped statements into the enclosing
map. Returns the updated enclosing map and the branch's mutated
`(test, stmts)`. -/
def processBranch (stateAssigns common : List String) (suffix : String)
    (i : Nat) (statements : Stmts) (branch : String × Stmts) :
    Except Err (Stmts × (String × Stmts)) := do
  let test := branch.1
  let (stmts1, statements1) := stateAssigns.foldl
    (fun (acc : Stmts × Stmts) sa =>
      if containsKey acc.1 sa then acc
      else
        match acc.2.lookup sa with
        | some v => (acc.1 ++ [(sa, v)], removeKey acc.2 sa)
        | none => (acc.1 ++ [(sa, .expr sa)], acc.2))
    (branch.2, statements)
  let stmts2 ← stmts1.mapM
    (fun (p : String × Rhs) =>
      if strStarts p.1 "__INBUILT_PROC_" then do
        let v' ← appendTestToProcArgs test p.2
        pure (p.1, v')
      else pure p)
  let branchSubs := (stmts1.map Prod.fst).filterMap
    (fun k => if common.contains k then none else some (k, branchName k suffix i))
  let stmts3 ← branchSubs.foldlM
    (fun st (p : String × String) => do
      let st' := st.map
        (fun (q : String × Rhs) =>
          if strStarts q.1 "__INBUILT_PROC_" then q
          else (q.1, subsVariableRhs p.1 p.2 q.2))
      renameKey st' p.1 p.2)
    stmts2
  let statements2 ← branchSubs.foldlM
    (fun (outer : Stmts) (p : String × String) =>
      match stmts3.lookup p.2 with
      | some v => pure (setKey outer p.2 v)
      | none => throw Err.keyError)
    statements1
  pure (statements2, (test, stmts3))

/-- The otherwise-recovery chain and piecewise recording for one common
left-hand side (nmodl.py lines 1431-1477), given the processed branches.
With an `else` branch (`noOtherwise = false`) the code asserts the
symbol was not previously defined and records the pieces; without one it
recovers the otherwise value from, in order: a previous definition in
the enclosing map, a property (renaming to `_constrained`), a state
variable, a function-argument substitution, a dimensioned symbol assumed
to be a state variable (warning), or — for a single branch — copies the
branch's raw right-hand side; otherwise it raises the import error. -/
def recordCommonLhs (conditionalLen : Nat) (noOtherwise : Bool) (suffix : String)
    (lastStmts : Stmts) (branches : List (String × Stmts)) (lhs : String)
    (acc : Stmts × List (String × String) × FlattenCtx) :
    Except Err (Stmts × List (String × String) × FlattenCtx) := do
  let (sts, sbs, cx) := acc
  if strStarts lhs "__INBUILT_PROC" then
    let sts' ← branches.enum.foldlM
      (fun (s : Stmts) (p : Nat × (String × Stmts)) => do
        match p.2.2.lookup lhs with
        | some (.procArgs args) =>
          match args.getLast? with
          | some last =>
            pure (setKey s (lhs ++ "branch_" ++ toString p.1)
              (.procArgs (args.dropLast
                ++ [last ++ "(" ++ last ++ ") & (" ++ p.2.1 ++ ")"])))
          | none => throw Err.indexError
        | some _ => throw Err.typeError
        | none => throw Err.keyError)
      sts
    pure (sts', sbs, cx)
  else do
    let pieces ← branches.foldlM
      (fun pcs (b : String × Stmts) => do
        match b.2.lookup lhs with
        | some r => unwrap_piecewise_stmt r b.1 pcs
        | none => throw Err.keyError)
      []
    if noOtherwise then
      match sts.lookup lhs with
      | some rhs => do
        let pieces2 ← unwrap_piecewise_stmt rhs "True" pieces
        pure (setKey sts lhs (.pieces pieces2), sbs, cx)
      | none =>
        if cx.properties.contains lhs then do
          let newLhs := lhs ++ "_constrained"
          let pieces2 ← unwrap_piecewise_stmt (.expr lhs) "True" pieces
          pure (setKey sts newLhs (.pieces pieces2), setKey sbs lhs newLhs, cx)
        else if cx.stateVariables.contains lhs then do
          let pieces2 ← unwrap_piecewise_stmt (.expr lhs) "True" pieces
          pure (setKey sts lhs (.pieces pieces2), sbs, cx)
        else
          match sbs.lookup (pyDropSuffix lhs suffix ++ "_arg_") with
          | some r => do
            let pieces2 ← unwrap_piecewise_stmt (.expr r) "True" pieces
            pure (setKey sts lhs (.pieces pieces2), sbs, cx)
          | none =>
            if cx.dimensions.contains lhs then do
              let pieces2 ← unwrap_piecewise_stmt (.expr lhs) "True" pieces
              pure (setKey sts lhs (.pieces pieces2), sbs,
                { cx with stateVariables := cx.stateVariables ++ [lhs] })
            else if conditionalLen = 1 then
              match lastStmts.lookup lhs with
              | some r => pure (setKey sts lhs r, sbs, cx)
              | none => throw Err.keyError
            else
              throw (Err.pype9Import
                ("Could not find previous definition of " ++ lhs
                  ++ " to form otherwise condition of conditional block"))
    else
      if containsKey sts lhs then throw Err.assertionError
      else pure (setKey sts lhs (.pieces pieces), sbs, cx)

/-- The unwrap phase of `_extract_conditional_block` (nmodl.py lines
1372-1482) on the parsed `(test, stmts)` branches: compute the common
left-hand sides (the intersection of the branches' keys, joined with
every state-variable assignment found in any branch), run the
branch-numbering loop, build one piecewise statement per common symbol,
and register suffix substitutions. -/
def extract_conditional_core (ctx : FlattenCtx)
    (conditionalStmts : List (String × Stmts)) (statements : Stmts)
    (subs : List (String × String)) (suffix : String) :
    Except Err (Stmts × List (String × String) × FlattenCtx) := do
  let lastTest ← match conditionalStmts.getLast? with
    | some b => pure b.1
    | none => throw Err.typeError
  let noOtherwise := lastTest ≠ "True"
  let common0 ← match conditionalStmts with
    | [] => throw Err.typeError
    | b :: rest =>
      pure ((b.2.map Prod.fst).filter
        (fun k => rest.all (fun b2 => containsKey b2.2 k)))
  let allKeys := (conditionalStmts.map (fun b => b.2.map Prod.fst)).flatten
  let stateAssigns := (allKeys.filter (fun k => ctx.stateVariables.contains k)).dedup
  let common := common0 ++ stateAssigns.filter (fun k => !common0.contains k)
  let (statementsA, branchesRev) ← conditionalStmts.enum.foldlM
    (fun (acc : Stmts × List (String × Stmts)) (p : Nat × (String × Stmts)) => do
      let (outer', b') ← processBranch stateAssigns common suffix p.1 acc.1 p.2
      pure (outer', b' :: acc.2))
    (statements, [])
  let branchesA := branchesRev.reverse
  let lastStmts := (branchesA.getLast?.map Prod.snd).getD []
  let (statementsB, subsB, ctxB) ← common.foldlM
    (fun acc lhs =>
      recordCommonLhs conditionalStmts.length noOtherwise suffix lastStmts
        branchesA lhs acc)
    (statementsA, subs, ctx)
  let subsC := if suffix ≠ "" then
      common.foldl (fun sb l => setKey sb (pyDropSuffix l suffix) l) subsB
    else subsB
  pure (statementsB, subsC, ctxB)

/-! ## `_get_piecewise` (nmodl.py lines 1568-1581)

A pieces list is turned into a piecewise alias: each `(expr, test)` pair
with `test != 'True'` becomes a parsed piece, the single `'True'` pair
becomes the `sympy.sympify(True)`-guarded otherwise placed last; an
`assert` enforces that exactly one `'True'` pair exists. -/

/-- A piecewise guard as built by `_get_piecewise`: the literal sympy
`True` of the otherwise piece (line 1576), or a parsed test expression
(line 1579). -/
inductive Guard where
  | sympyTrue
  | parsed (s : String)
  deriving Repr, DecidableEq

/-- The accumulation loop of `_get_piecewise` (lines 1570-1580):
collects non-otherwise pieces in order and at most one otherwise,
asserting against duplicates, and finally asserts an otherwise was
found. -/
def getPiecewiseAux : List (String × String) → List (String × Guard) →
    Option (String × Guard) → Except Err (List (String × Guard) × (String × Guard))
  | [], _, none => .error .assertionError
  | [], pieces, some o => .ok (pieces, o)
  | (e, t) :: rest, pieces, o =>
    let e' := substitute_functions e
    if t = "True" then
      match o with
      | some _ => .error .assertionError
      | none => getPiecewiseAux rest pieces (some (e', .sympyTrue))
    else
      getPiecewiseAux rest (pieces ++ [(e', .parsed (substitute_functions t))]) o

/-- `_get_piecewise(lhs, rhs)`: the alias name and the ordered pieces,
with the otherwise last (`pieces + [otherwise]`, line 1581). -/
def get_piecewise (lhs : String) (rhs : List (String × String)) :
    Except Err (String × List (String × Guard)) :=
  match getPiecewiseAux rhs [] none with
  | .ok (pieces, o) => .ok (lhs, pieces ++ [o])
  | .error e => .error e

/-- First-match evaluation of a constructed piecewise under a boolean
valuation of the guard expressions (the semantics of an ordered
`sympy.Piecewise`). -/
def evalPiecewise (v : String → Bool) : List (String × Guard) → Option String
  | [] => none
  | (e, g) :: rest =>
    match g with
    | .sympyTrue => some e
    | .parsed s => if v s then some e else evalPiecewise v rest

/-! ## Regime / transition synthesis (`_create_regimes`, nmodl.py 405-507)

`_create_regimes` turns the flag-keyed `NetReceive` records collected by
`_extract_netreceive_block` (plus the WATCH trigger table and the parsed
DERIVATIVE block) into named regimes with guarded transitions. The 9ML
objects (`Regime`, `OnCondition`, `OnEvent`, `StateAssignment`,
`TimeDerivative`, `OutputEvent`) are embedded as plain structures. -/

/-- `TimeDerivative(dependent, rhs)`. -/
structure TimeDeriv where
  dependent : String
  rhs : String
  deriving Repr, DecidableEq

/-- `StateAssignment(variable, expr)`. -/
structure StateAssignT where
  lhs : String
  rhs : String
  deriving Repr, DecidableEq

/-- `OnCondition(trigger, state_assignments, output_events,
target_regime)`. -/
structure OnConditionT where
  trigger : String
  stateAssignments : List StateAssignT
  outputEvents : List String
  targetRegime : String
  deriving Repr, DecidableEq

/-- `OnEvent(src_port, state_assignments, output_events,
target_regime)`. -/
structure OnEventT where
  srcPort : String
  stateAssignments : List StateAssignT
  outputEvents : List String
  targetRegime : String
  deriving Repr, DecidableEq

/-- A regime transition: condition-triggered or event-triggered. -/
inductive Transition where
  | onCondition (c : OnConditionT)
  | onEvent (e : OnEventT)
  deriving Repr, DecidableEq

/-- `Regime(name, time_derivatives, transitions)`. -/
structure RegimeT where
  name : String
  timeDerivatives : List TimeDeriv
  transitions : List Transition
  deriving Repr, DecidableEq

/-- The `NetReceive` named tuple (nmodl.py lines 93-96): the target flag
and delay of the handler's `net_send` (target `-1`, delay `None` when
absent), the handler's argument list with dimensions, its state
assignments, aliases (name to right-hand side) and output events. -/
structure NetReceive where
  target : Int
  delay : Option String
  args : List (String × Dimension)
  assignments : List (String × StateAssignT)
  aliases : List (String × String)
  outputEvents : List (String × String)
  deriving Repr, DecidableEq

/-- A value of `self.init_statements`: a flattened expression string, or
— after the initial-flag merge of nmodl.py lines 425-427 — a
`StateAssignment` or `Alias` object from the initial handler. -/
inductive InitVal where
  | expr (s : String)
  | saVal (a : StateAssignT)
  | aliasVal (rhs : String)
  deriving Repr, DecidableEq

/-- The importer state read and written by `_create_regimes` and the
regime-related part of `_extract_netreceive_block`. -/
structure SynthState where
  regimeParts : List (String × List TimeDeriv)
  initialFlag : Option Int
  netReceives : List (Int × NetReceive)
  triggers : List (Int × List String)
  breakpointAliases : List (String × String)
  stateVariables : List (String × Option Dimension)
  dimensions : List (String × Dimension)
  aliases : List (String × String)
  analogPorts : List String
  eventPorts : List String
  initStatements : List (String × InitVal)
  warnings : List String
  deriving Repr, DecidableEq

/-- Lines 985-991 of `_extract_netreceive_block`: after collecting a
flag handler's assignments, if its `net_send` targets a non-default flag
(`target != -1`), synthesize the `last_transition` state variable with
time dimension if absent, and set the handler's
`last_transition := t` state assignment. -/
def addLastTransition (target : Int)
    (stateVariables : List (String × Option Dimension))
    (assignments : List (String × StateAssignT)) :
    (List (String × Option Dimension)) × List (String × StateAssignT) :=
  if target ≠ -1 then
    ((if containsKey stateVariables "last_transition" then stateVariables
      else stateVariables ++ [("last_transition", some .time)]),
     setKey assignments "last_transition" ⟨"last_transition", "t"⟩)
  else (stateVariables, assignments)

/-- Insertion sort for `sorted(regime_flags)` (nmodl.py line 444). -/
def insertSorted (x : Int) : List Int → List Int
  | [] => [x]
  | y :: ys => if x ≤ y then x :: y :: ys else y :: insertSorted x ys

def sortInts (l : List Int) : List Int :=
  l.foldr insertSorted []

/-- Position of a flag in the sorted flag list (the `regime_ids`
mapping, nmodl.py line 444). -/
def idxOf? (f : Int) : List Int → Option Nat
  | [] => none
  | x :: xs => if x = f then some 0 else (idxOf? f xs).map (· + 1)

/-- `'{}'.format(delay)` (nmodl.py line 478): Python formats `None` as
the string `None`. -/
def formatDelay : Option String → String
  | some s => s
  | none => "None"

/-- `if receive.delay:` (nmodl.py line 472): Python truthiness of the
delay — `None` and the empty string are falsy. -/
def delayTruthy : Option String → Bool
  | some s => s ≠ ""
  | none => false

/-- The maximal word tokens of an expression string: the embedding of
membership in a sympy expression's `rhs_symbols` (nmodl.py line 454) —
a name is a free symbol of a flattened right-hand side exactly when it
occurs as a maximal word run of its string. -/
def wordTokensFuel : Nat → List Char → List String
  | 0, _ => []
  | _ + 1, [] => []
  | fuel + 1, c :: cs =>
    if isWordChar c then
      (⟨c :: cs.takeWhile isWordChar⟩ : String)
        :: wordTokensFuel fuel (cs.dropWhile isWordChar)
    else wordTokensFuel fuel cs

def rhsSymbols (rhs : String) : List String :=
  wordTokensFuel rhs.data.length rhs.data

/-- The flags for which `_create_regimes` creates a regime (nmodl.py
lines 436-442): the default flag `-1`, plus every flag whose `NetReceive`
record carries a non-`None` delay — that is, every flag whose handler
contains a delayed self-scheduled `net_send`. -/
def regimeFlagsOf (netReceives : List (Int × NetReceive)) : List Int :=
  -1 :: (netReceives.filter (fun p => p.2.delay ≠ none)).map Prod.fst

/-- The flags that are *targets* of a delayed self-scheduled `net_send`
(the claim's phrasing; the code does not create regimes for these). -/
def targetsOfDelayed (netReceives : List (Int × NetReceive)) : List Int :=
  (netReceives.filter (fun p => p.2.delay ≠ none)).map (fun p => p.2.target)

/-- The `origins` table (nmodl.py lines 437-439): for each target flag,
the `(sender flag, delay)` pairs of the handlers whose `net_send`
targets it. -/
def originsOf (netReceives : List (Int × NetReceive)) :
    List (Int × List (Int × Option String)) :=
  netReceives.foldl
    (fun o p =>
      setKey o p.2.target (((o.lookup p.2.target).getD []) ++ [(p.1, p.2.delay)]))
    []

/-- The alias-reclassification loop of nmodl.py lines 451-465: an alias
of the handler whose name occurs among the symbols of a BREAKPOINT alias
becomes a dimensionful state variable with a state assignment (its
dimension looked up in `self.dimensions`, `KeyError` if absent) and is
removed from `self.aliases`; any other handler alias is recorded as a
general alias after asserting it is not already present. -/
def reclassifyAliases (st : SynthState) (stateAssignments : List StateAssignT)
    (recAliases : List (String × String)) :
    Except Err (SynthState × List StateAssignT) :=
  recAliases.foldlM
    (fun (acc : SynthState × List StateAssignT) (al : String × String) => do
      let (s, sas) := acc
      if s.breakpointAliases.any (fun ba => (rhsSymbols ba.2).contains al.1) then
        let s1 ←
          if containsKey s.stateVariables al.1 then pure s
          else
            match s.dimensions.lookup al.1 with
            | some d =>
              pure { s with stateVariables := s.stateVariables ++ [(al.1, some d)] }
            | none => throw Err.keyError
        pure ({ s1 with aliases := removeKey s1.aliases al.1 },
              sas ++ [⟨al.1, al.2⟩])
      else
        if containsKey s.aliases al.1 then throw Err.assertionError
        else pure ({ s with aliases := setKey s.aliases al.1 al.2 }, sas))
    (st, stateAssignments)

/-- `_create_regimes` (nmodl.py lines 405-507). Raises
`NotImplementedError` for more than one DERIVATIVE block; asserts the
initial flag is not a WATCH trigger key; merges an initial-flag handler
into the initial statements; creates one regime per flag in
`regimeFlagsOf` (consecutively numbered over the sorted flags, flag `-1`
becoming the default `regime_0`); and for every handler emits its
transitions: a timed `OnCondition` with trigger
`t > (last_transition + delay)` into the regime of each origin that
`net_send`s to it, an `OnCondition` per WATCH trigger into the default
regime, and — for flag `0` — an `OnEvent` on the reserved
`incoming_spike` port into the default regime; a handler whose own
`net_send` is delayed targets its own (non-default) regime, otherwise
the default regime. Every regime carries the single DERIVATIVE block's
time derivatives. -/
def createRegimes (st : SynthState) :
    Except Err (SynthState × List (String × RegimeT)) := do
  let timeDerivatives ←
    if st.regimeParts.length > 1 then throw Err.notImplemented
    else
      match st.regimeParts with
      | [] => pure []
      | p :: _ => pure p.2
  if (match st.initialFlag with
      | some f => containsKey st.triggers f
      | none => false) then
    throw Err.assertionError
  let st ← match st.initialFlag with
    | none => pure st
    | some f =>
      match st.netReceives.lookup f with
      | some r =>
        if r.target = -1 ∧ r.delay = none ∧ r.outputEvents = [] ∧ r.args = [] then
          pure { st with
            netReceives := removeKey st.netReceives f,
            initStatements :=
              (r.aliases.foldl (fun m p => setKey m p.1 (InitVal.aliasVal p.2))
                (r.assignments.foldl (fun m p => setKey m p.1 (InitVal.saVal p.2))
                  st.initStatements)) }
        else throw Err.assertionError
      | none =>
        if st.warnings ≠ [] then pure st else throw Err.keyError
  let regimeFlags := regimeFlagsOf st.netReceives
  let origins := originsOf st.netReceives
  let sortedFlags := sortInts regimeFlags
  let regimeTransitionsInit : List (Int × List Transition) :=
    regimeFlags.map (fun f => (f, []))
  let (st2, regimeTransitions) ← st.netReceives.foldlM
    (fun (acc : SynthState × List (Int × List Transition)) (p : Int × NetReceive) => do
      let (s, rt) := acc
      let (flag, receive) := p
      let stateAssignments := receive.assignments.map Prod.snd
      let outputEvents := receive.outputEvents.map Prod.snd
      let (s1, stateAssignments) ← reclassifyAliases s stateAssignments receive.aliases
      let s2 := receive.args.foldl
        (fun (s' : SynthState) (a : String × Dimension) =>
          if s'.analogPorts.contains a.1 then s'
          else { s' with analogPorts := s'.analogPorts ++ [a.1] }) s1
      let targetRegime ←
        if delayTruthy receive.delay then
          match idxOf? flag sortedFlags with
          | some i => pure ("regime_" ++ toString i)
          | none => throw Err.keyError
        else pure "regime_0"
      let rt1 ← ((origins.lookup flag).getD []).foldlM
        (fun (rt' : List (Int × List Transition)) (o : Int × Option String) => do
          let onCond := Transition.onCondition
            ⟨"t > (last_transition + " ++ formatDelay o.2 ++ ")",
             stateAssignments, outputEvents, targetRegime⟩
          match rt'.lookup o.1 with
          | some ts => pure (setKey rt' o.1 (ts ++ [onCond]))
          | none => throw Err.keyError)
        rt
      let rt2 ← ((st.triggers.lookup flag).getD []).foldlM
        (fun (rt' : List (Int × List Transition)) (test : String) => do
          let onCond := Transition.onCondition
            ⟨test, stateAssignments, outputEvents, targetRegime⟩
          match rt'.lookup (-1 : Int) with
          | some ts => pure (setKey rt' (-1 : Int) (ts ++ [onCond]))
          | none => throw Err.keyError)
        rt1
      if flag = 0 then do
        let s3 := if s2.eventPorts.contains "incoming_spike" then s2
                  else { s2 with eventPorts := s2.eventPorts ++ ["incoming_spike"] }
        let onEv := Transition.onEvent
          ⟨"incoming_spike", stateAssignments, outputEvents, targetRegime⟩
        match rt2.lookup (-1 : Int) with
        | some ts => pure (s3, setKey rt2 (-1 : Int) (ts ++ [onEv]))
        | none => throw Err.keyError
      else pure (s2, rt2))
    (st, regimeTransitionsInit)
  let regimes ← regimeTransitions.foldlM
    (fun (rs : List (String × RegimeT)) (p : Int × List Transition) => do
      match idxOf? p.1 sortedFlags with
      | some i =>
        let name := "regime_" ++ toString i
        pure (setKey rs name ⟨name, timeDerivatives, p.2⟩)
      | none => throw Err.keyError)
    []
  pure (st2, regimes)

/-- The NET_RECEIVE scenario of the spec's end-to-end example:
`net_send(5, 1)` under flag 0 (so the flag-0 handler's record carries
target 1 and delay `5`, and — through `addLastTransition` — the
synthesized `last_transition := t` assignment), and a flag-1 handler
that sets the state variable `m`. -/
def netsendExampleLT :
    (List (String × Option Dimension)) × List (String × StateAssignT) :=
  addLastTransition 1 [("m", none)] []

def netsendExampleReceives : List (Int × NetReceive) :=
  [(0, ⟨1, some "5", [], netsendExampleLT.2, [], []⟩),
   (1, ⟨-1, none, [], [("m", ⟨"m", "1"⟩)], [], []⟩)]

def netsendExampleState : SynthState :=
  { regimeParts := [], initialFlag := none,
    netReceives := netsendExampleReceives,
    triggers := [], breakpointAliases := [],
    stateVariables := netsendExampleLT.1,
    dimensions := [], aliases := [], analogPorts := [], eventPorts := [],
    initStatements := [], warnings := [] }

/-- A synthesizer state with two DERIVATIVE blocks and nothing else. -/
def twoDerivativeState : SynthState :=
  { regimeParts := [("states", []), ("other", [])], initialFlag := none,
    netReceives := [], triggers := [], breakpointAliases := [],
    stateVariables := [], dimensions := [], aliases := [], analogPorts := [],
    eventPorts := [], initStatements := [], warnings := [] }

/-! ## Theorems -/

theorem runExtractors_mem {blocks rem : List String} {pops : List (String × Bool)}
    (h : runExtractors blocks pops = .ok rem) :
    ∀ b ∈ blocks, b ∈ rem ∨ b ∈ pops.map Prod.fst := by
  induction pops generalizing blocks with
  | nil =>
    intro b hb
    simp only [runExtractors] at h
    cases h
    exact Or.inl hb
  | cons p rest ih =>
    intro b hb
    obtain ⟨n, d⟩ := p
    simp only [runExtractors] at h
    unfold popBlock at h
    by_cases hn : n ∈ blocks
    · simp only [hn, if_pos] at h
      by_cases hbn : b = n
      · exact Or.inr (by simp [hbn])
      · have hb' : b ∈ blocks.erase n := (List.mem_erase_of_ne hbn).mpr hb
        rcases ih h b hb' with h1 | h1
        · exact Or.inl h1
        · exact Or.inr (by simpa using Or.inr h1)
    · simp only [hn, if_neg, if_false] at h
      cases d with
      | true =>
        simp only [if_true] at h
        rcases ih h b hb with h1 | h1
        · exact Or.inl h1
        · exact Or.inr (by simpa using Or.inr h1)
      | false => simp at h

/-- C3. The set of parsed-but-unconsumed top-level blocks is empty when
the constructor returns: the extractor pop list covers each block name
exactly once (no block is popped by two extractors), a successful import
implies every parsed block name was consumed by one of the extractors,
and an input carrying a top-level block that no extractor consumes (here
`FOOBAR`) fails at the post-extraction completeness check
(`assert not self.blocks`, an `AssertionError`) instead of returning. -/
theorem blocks_completeness_invariant :
    (extractorPops.map Prod.fst).Nodup ∧
    (∀ blocks, importBlocksCheck blocks = .ok () →
      ∀ b ∈ blocks, b ∈ extractorPops.map Prod.fst) ∧
    importBlocksCheck ["NEURON", "PARAMETER", "FOOBAR"] = .error .assertionError := by
  refine ⟨by decide, ?_, by rfl⟩
  intro blocks hok b hb
  unfold importBlocksCheck at hok
  cases hrun : runExtractors blocks extractorPops with
  | ok rem =>
    rw [hrun] at hok
    have hempty : rem.isEmpty := by
      by_contra hne
      simp [hne] at hok
    rcases runExtractors_mem hrun b hb with h1 | h1
    · rw [List.isEmpty_iff] at hempty
      subst hempty
      exact absurd h1 (List.not_mem_nil b)
    · exact h1
  | error e => rw [hrun] at hok; cases hok

/-- Witness for `blocks_completeness_invariant`: a concrete successful
run, with all block names consumed, discharging the hypotheses of the
universally quantified conjunct. -/
theorem blocks_completeness_invariant_witness :
    "NEURON" ∈ extractorPops.map Prod.fst :=
  blocks_completeness_invariant.2.1 ["NEURON", "PARAMETER"] (by rfl)
    "NEURON" (by decide)

theorem runStages_ok_raising_downgraded {raises : String → Option String}
    {d : ImportDiag} (h : runStages raises = .ok d) :
    ∀ s ∈ importStages, raises s.1 ≠ none → s.2 = true := by
  intro s hs hr
  unfold runStages at h
  revert h
  have : ∀ (init : ImportDiag) (l : List (String × Bool)), s ∈ l →
      l.foldlM (fun diag stage =>
        match raises stage.1 with
        | none => Except.ok diag
        | some msg =>
          if stage.2 then
            Except.ok { warnings := diag.warnings ++ [downgradeWarning stage.1 msg],
                        incompleteImport := true }
          else Except.error (Err.pype9Import msg)) init = .ok d → s.2 = true := by
    intro init l
    induction l generalizing init with
    | nil => intro h; cases h
    | cons p rest ih =>
      intro hmem hfold
      rw [List.foldlM_cons] at hfold
      rcases List.mem_cons.mp hmem with heq | hmem'
      · subst heq
        cases hcall : raises s.1 with
        | none => exact absurd hcall hr
        | some msg =>
          simp only [hcall] at hfold
          by_cases h2 : s.2 = true
          · exact h2
          · simp only [h2] at hfold
            exact absurd hfold (by simp [bind, Except.bind])
      · cases hcall : raises p.1 with
        | none =>
          simp only [hcall] at hfold
          exact ih _ hmem' hfold
        | some msg =>
          simp only [hcall] at hfold
          by_cases h2 : p.2 = true
          · simp only [h2, if_true] at hfold
            exact ih _ hmem' hfold
          · simp only [h2] at hfold
            exact absurd hfold (by simp [bind, Except.bind])
  exact fun h => this _ importStages hs h

/-- C4. Exactly the BREAKPOINT- and NET_RECEIVE-extraction stages have
their `Pype9ImportError`s downgraded: (i) the stages marked as wrapped in
a `try/except Pype9ImportError` are precisely `_extract_breakpoint_block`
and `_extract_netreceive_block`; (ii) when BREAKPOINT extraction raises,
the constructor continues, appends the corresponding warning to the
ordered warnings list and sets `incomplete_import = True` (likewise for
NET_RECEIVE, and both warnings accumulate in stage order when both
raise); (iii) any run that completes without propagating an error only
ever had raises in downgraded stages — an import error in any of the
other stages propagates. -/
theorem breakpoint_netreceive_errors_downgraded :
    ((importStages.filter (·.2)).map Prod.fst
      = ["_extract_breakpoint_block", "_extract_netreceive_block"]) ∧
    (runStages (raisesOnly "_extract_breakpoint_block" "E1")
      = .ok ⟨[downgradeWarning "_extract_breakpoint_block" "E1"], true⟩) ∧
    (runStages (raisesOnly "_extract_netreceive_block" "E2")
      = .ok ⟨[downgradeWarning "_extract_netreceive_block" "E2"], true⟩) ∧
    (runStages (fun s => if s = "_extract_breakpoint_block" then some "E1"
                         else if s = "_extract_netreceive_block" then some "E2"
                         else none)
      = .ok ⟨[downgradeWarning "_extract_breakpoint_block" "E1",
              downgradeWarning "_extract_netreceive_block" "E2"], true⟩) ∧
    (runStages (raisesOnly "_extract_derivative_block" "E3")
      = .error (.pype9Import "E3")) ∧
    (∀ raises d, runStages raises = .ok d →
      ∀ s ∈ importStages, raises s.1 ≠ none → s.2 = true) := by
  refine ⟨by rfl, by rfl, by rfl, by rfl, by rfl, ?_⟩
  intro raises d h
  exact runStages_ok_raising_downgraded h

/-- Witness for `breakpoint_netreceive_errors_downgraded`: the
universally quantified conjunct applied at a concrete successful run. -/
theorem breakpoint_netreceive_errors_downgraded_witness :
    ("_extract_breakpoint_block", true).2 = true :=
  breakpoint_netreceive_errors_downgraded.2.2.2.2.2
    (raisesOnly "_extract_breakpoint_block" "E1") _ (by rfl)
    ("_extract_breakpoint_block", true) (by decide)
    (by simp [raisesOnly])

/-- C6 counterexample. The claim says the fatal import error is raised
for unresolvable dimensionality strings by BOTH entry points. It is
false for the dimension entry point: `_units2dimension` on a unit string
whose reduced SI dimensionality string (`cd`) is not in the table raises
a bare `KeyError` from the dict lookup, not the `Pype9ImportError`
unit-resolution error. -/
theorem units2dimension_raises_keyError_not_import_error :
    units2dimension reduceCandela "candela" = .error .keyError ∧
    raisedPype9Import (units2dimension reduceCandela "candela") = false :=
  ⟨rfl, rfl⟩

/-- C6 amended. For every unit string whose reduced SI dimensionality
string is not in the fixed `_SI_to_dimension` table, both resolution
entry points fail rather than guessing a dimension or returning a
default: `_units2nineml_units` raises the fatal `Pype9ImportError`
unit-resolution error, while `_units2dimension` fails with a bare
`KeyError` from the table lookup. -/
theorem unresolvable_dimensionality_fails (reduce : String → Except Err (Option String × Int))
    (ninemlUnits : List ((Dimension × Int) × String)) (units : String)
    (dimStr : Option String) (power : Int)
    (hreduce : reduce units = .ok (dimStr, power))
    (hmiss : SI_to_dimension.lookup dimStr = none) :
    units2nineml_units reduce ninemlUnits units
      = .error (.pype9Import ("Unrecognised dimension from units " ++ units)) ∧
    units2dimension reduce units = .error .keyError := by
  constructor
  · unfold units2nineml_units
    simp [hreduce, hmiss, bind, Except.bind, throw, throwThe, MonadExceptOf.throw]
  · unfold units2dimension
    simp [hreduce, hmiss, bind, Except.bind, throw, throwThe, MonadExceptOf.throw]

/-- Witness for `unresolvable_dimensionality_fails` at the concrete
`candela` input. -/
theorem unresolvable_dimensionality_fails_witness :
    units2nineml_units reduceCandela [] "candela"
      = .error (.pype9Import ("Unrecognised dimension from units " ++ "candela")) ∧
    units2dimension reduceCandela "candela" = .error .keyError :=
  unresolvable_dimensionality_fails reduceCandela [] "candela" (some "cd") 0
    (by rfl) (by rfl)

theorem length_dropWhile_le {α : Type} (p : α → Bool) (l : List α) :
    (l.dropWhile p).length ≤ l.length := by
  induction l with
  | nil => simp
  | cons c cs ih =>
    by_cases h : p c
    · simp only [List.dropWhile, h]
      exact Nat.le_succ_of_le ih
    · simp [List.dropWhile, h]

theorem findAssign_rest_length {prev : Option Char} {l left rest : List Char}
    (h : findAssign prev l = some (left, rest)) : rest.length < l.length := by
  induction l generalizing prev left with
  | nil => simp [findAssign] at h
  | cons c cs ih =>
    unfold findAssign at h
    by_cases hlb : ((prev ≠ some '>' ∧ prev ≠ some '<') : Prop)
    · simp only [if_pos hlb] at h
      cases hm : matchEqHere (c :: cs) with
      | some rest' =>
        simp only [hm] at h
        cases h
        unfold matchEqHere at hm
        cases hd : (c :: cs).dropWhile (· = ' ') with
        | nil => simp [hd] at hm
        | cons d ds =>
          rw [hd] at hm
          by_cases hdeq : d = '='
          · subst hdeq
            simp only at hm
            cases hm
            calc (ds.dropWhile (· = ' ')).length
                ≤ ds.length := length_dropWhile_le _ _
              _ < (('=' :: ds).length) := by simp
              _ ≤ (c :: cs).length := by
                  rw [← hd]
                  exact length_dropWhile_le _ _
          · cases d
            simp_all
      | none =>
        simp only [hm] at h
        cases hr : findAssign (some c) cs with
        | some p =>
          obtain ⟨left', rest'⟩ := p
          rw [hr] at h
          cases h
          exact Nat.lt_succ_of_lt (ih hr)
        | none => rw [hr] at h; cases h
    · simp only [if_neg hlb] at h
      cases hr : findAssign (some c) cs with
      | some p =>
        obtain ⟨left', rest'⟩ := p
        rw [hr] at h
        cases h
        exact Nat.lt_succ_of_lt (ih hr)
      | none => rw [hr] at h; cases h

theorem takeWhile_append_of_all {α : Type} {p : α → Bool} {l₁ : List α} (l₂ : List α)
    (h : ∀ a ∈ l₁, p a) : (l₁ ++ l₂).takeWhile p = l₁ ++ l₂.takeWhile p := by
  induction l₁ with
  | nil => simp
  | cons a l ih =>
    have ha : p a := h a (by simp)
    simp only [List.cons_append, List.takeWhile_cons, ha, if_true]
    rw [ih (fun b hb => h b (by simp [hb]))]

theorem dropWhile_append_of_all {α : Type} {p : α → Bool} {l₁ : List α} (l₂ : List α)
    (h : ∀ a ∈ l₁, p a) : (l₁ ++ l₂).dropWhile p = l₂.dropWhile p := by
  induction l₁ with
  | nil => simp
  | cons a l ih =>
    have ha : p a := h a (by simp)
    simp only [List.cons_append, List.dropWhile_cons, ha, if_true]
    exact ih (fun b hb => h b (by simp [hb]))

/-- For any word name and any numeric literal index, the scanner rewrites
the whole indexing expression `name[digits]` to the concatenation of the
name, `__elem` and the digits. -/
theorem getitemSub_rewrites (name ds : List Char)
    (hn : name ≠ []) (hw : ∀ c ∈ name, isWordChar c)
    (hd : ds ≠ []) (hdd : ∀ c ∈ ds, c.isDigit) :
    getitemSub (name ++ '[' :: (ds ++ [']'])) = name ++ ("__elem".data ++ ds) := by
  cases name with
  | nil => exact absurd rfl hn
  | cons c cs =>
    have hc : isWordChar c := hw c (by simp)
    have hcs : ∀ a ∈ cs, isWordChar a := fun a ha => hw a (by simp [ha])
    unfold getitemSub
    have hlen : ((c :: cs) ++ '[' :: (ds ++ [']'])).length = (cs ++ '[' :: (ds ++ [']'])).length + 1 := by
      simp
    rw [hlen]
    unfold getitemFuel
    simp only [List.cons_append, hc, if_true]
    have htake : (cs ++ '[' :: (ds ++ [']'])).takeWhile isWordChar = cs := by
      rw [takeWhile_append_of_all _ hcs]
      simp [List.takeWhile_cons, isWordChar]
    have hdrop : (cs ++ '[' :: (ds ++ [']'])).dropWhile isWordChar = '[' :: (ds ++ [']']) := by
      rw [dropWhile_append_of_all _ hcs]
      simp [List.dropWhile_cons, isWordChar]
    rw [htake, hdrop]
    simp only
    have htake2 : (ds ++ [']']).takeWhile Char.isDigit = ds := by
      rw [takeWhile_append_of_all _ hdd]
      simp [List.takeWhile_cons]
    have hdrop2 : (ds ++ [']']).dropWhile Char.isDigit = [']'] := by
      rw [dropWhile_append_of_all _ hdd]
      simp [List.dropWhile_cons]
    rw [htake2, hdrop2]
    have hne : ds.isEmpty = false := by
      cases ds with
      | nil => exact absurd rfl hd
      | cons d dt => rfl
    simp only [hne, Bool.false_eq_true, if_false]
    have hnil : ∀ f, getitemFuel f [] = [] := by
      intro f
      cases f with
      | zero => rfl
      | succ g => rfl
    simp [hnil]

/-- C10. For every PARAMETER/CONSTANT line declaring a name with units
but no `=` default: if the name is `celsius` or `v` the properties table
is returned unchanged (no property, hence no later Parameter, is created
for it), and any other name is recorded with value NaN and the sanitized
units; concretely, `celsius (degC)` and `v (mV)` add nothing while
`gbar (S/cm2)` records `gbar ↦ (NaN, S/cm^2)`. -/
theorem defaultless_parameter_reserved_names :
    (∀ (props : List (String × (PVal × String))) (line name units u : String),
      (assignSplit line).length = 1 →
      parseDefaultlessParam line = some (name, units) →
      sanitizeUnits units = .ok u →
      extract_parameter_defaultless props line =
        .ok (some (if name = "celsius" ∨ name = "v" then props
                   else setKey props name (.nan, u)))) ∧
    extract_parameter_defaultless [] "celsius (degC)" = .ok (some []) ∧
    extract_parameter_defaultless [] "v (mV)" = .ok (some []) ∧
    extract_parameter_defaultless [] "gbar (S/cm2)"
      = .ok (some [("gbar", (.nan, "S/cm^2"))]) := by
  refine ⟨?_, by rfl, by rfl, by rfl⟩
  intro props line name units u hsplit hparse hsan
  unfold extract_parameter_defaultless
  rw [if_pos hsplit, hparse]
  dsimp only
  rw [hsan]
  dsimp only
  by_cases hres : name = "celsius" ∨ name = "v"
  · rw [if_pos hres, if_pos hres]
  · rw [if_neg hres, if_neg hres]

/-- Witness for `defaultless_parameter_reserved_names` at the concrete
line `celsius (degC)`. -/
theorem defaultless_parameter_reserved_names_witness :
    extract_parameter_defaultless [] "celsius (degC)" =
      .ok (some (if "celsius" = "celsius" ∨ "celsius" = "v" then ([] : List (String × (PVal × String)))
                 else setKey [] "celsius" (.nan, "degC"))) :=
  defaultless_parameter_reserved_names.1 [] "celsius (degC)" "celsius" "degC" "degC"
    (by rfl) (by rfl) (by rfl)

theorem getPiecewiseAux_invariant :
    ∀ (rhs : List (String × String)) (pcs : List (String × Guard))
      (o : Option (String × Guard)) (ps : List (String × Guard)) (ot : String × Guard),
      getPiecewiseAux rhs pcs o = .ok (ps, ot) →
      (∀ p ∈ pcs, p.2 ≠ Guard.sympyTrue) →
      (∀ x, o = some x → x.2 = Guard.sympyTrue) →
      (∀ p ∈ ps, p.2 ≠ Guard.sympyTrue) ∧ ot.2 = Guard.sympyTrue := by
  intro rhs
  induction rhs with
  | nil =>
    intro pcs o ps ot h hpcs ho
    cases o with
    | none => simp [getPiecewiseAux] at h
    | some x =>
      simp only [getPiecewiseAux] at h
      cases h
      exact ⟨hpcs, ho _ rfl⟩
  | cons p rest ih =>
    intro pcs o ps ot h hpcs ho
    obtain ⟨e, t⟩ := p
    simp only [getPiecewiseAux] at h
    by_cases ht : t = "True"
    · rw [if_pos ht] at h
      cases o with
      | some x => cases h
      | none =>
        refine ih _ _ _ _ h hpcs ?_
        intro x hx
        cases hx
        rfl
    · rw [if_neg ht] at h
      refine ih _ _ _ _ h ?_ ho
      intro q hq
      rcases List.mem_append.mp hq with h1 | h1
      · exact hpcs q h1
      · rw [List.mem_singleton] at h1
        subst h1
        simp

/-- C1. Flattening the conditional block `{a=1}else{a=2}` (branches
`(g, {a: 1})` and `('True', {a: 2})` with guard `g`) produces exactly
one entry in the statement map: a single piecewise definition for `a`
whose pieces are the per-branch values with their branch guards, the
final piece carrying the catch-all `'True'` guard. `_get_piecewise`
turns it into the alias `a ↦ Piecewise((1, g), (2, True))`; under
first-match evaluation the effective guards are logical complements
covering all cases (for every valuation exactly one piece is selected:
the first iff the guard holds, the otherwise iff it fails); and every
alias `_get_piecewise` constructs — for any input — contains exactly one
`True`-guarded (otherwise) piece, enforced by its asserts. -/
theorem conditional_else_single_piecewise :
    (∀ g : String,
      extract_conditional_core ⟨[], [], []⟩
        [(g, [("a", .expr "1")]), ("True", [("a", .expr "2")])] [] [] ""
        = .ok ([("a", .pieces [("1", g), ("2", "True")])], [], ⟨[], [], []⟩)) ∧
    (∀ g : String, g ≠ "True" →
      get_piecewise "a" [("1", g), ("2", "True")]
        = .ok ("a", [("1", .parsed (substitute_functions g)), ("2", .sympyTrue)])) ∧
    (∀ (s : String) (v : String → Bool),
      evalPiecewise v [("1", Guard.parsed s), ("2", Guard.sympyTrue)]
        = some (if v s then "1" else "2")) ∧
    (∀ (lhs lhs' : String) (rhs : List (String × String)) (ps : List (String × Guard)),
      get_piecewise lhs rhs = .ok (lhs', ps) →
      (ps.filter (fun p => p.2 == Guard.sympyTrue)).length = 1) := by
  refine ⟨fun g => rfl, ?_, ?_, ?_⟩
  · intro g hg
    unfold get_piecewise getPiecewiseAux
    rw [if_neg hg]
    rfl
  · intro s v
    by_cases hv : v s
    · simp [evalPiecewise, hv]
    · simp [evalPiecewise, hv]
  · intro lhs lhs' rhs ps h
    unfold get_piecewise at h
    cases haux : getPiecewiseAux rhs [] none with
    | error e => rw [haux] at h; cases h
    | ok pr =>
      obtain ⟨pieces, ot⟩ := pr
      rw [haux] at h
      cases h
      obtain ⟨hpieces, hot⟩ := getPiecewiseAux_invariant rhs [] none pieces ot haux
        (by intro p hp; cases hp) (by intro x hx; cases hx)
      rw [List.filter_append]
      have h1 : pieces.filter (fun p => p.2 == Guard.sympyTrue) = [] := by
        rw [List.filter_eq_nil_iff]
        intro p hp
        simp only [beq_iff_eq]
        exact hpieces p hp
      have h2 : [ot].filter (fun p => p.2 == Guard.sympyTrue) = [ot] := by
        simp [List.filter, hot]
      rw [h1, h2]
      rfl

/-- Witness for `conditional_else_single_piecewise`: the hypotheses of
its conditional conjuncts discharged at the concrete guard `v > 0`. -/
theorem conditional_else_single_piecewise_witness :
    get_piecewise "a" [("1", "v > 0"), ("2", "True")]
      = .ok ("a", [("1", .parsed (substitute_functions "v > 0")), ("2", .sympyTrue)]) ∧
    (([("1", Guard.parsed (substitute_functions "v > 0")),
       ("2", Guard.sympyTrue)].filter (fun p => p.2 == Guard.sympyTrue)).length = 1) :=
  ⟨conditional_else_single_piecewise.2.1 "v > 0" (by decide),
   conditional_else_single_piecewise.2.2.2 "a" "a" [("1", "v > 0"), ("2", "True")]
     [("1", .parsed (substitute_functions "v > 0")), ("2", .sympyTrue)]
     (conditional_else_single_piecewise.2.1 "v > 0" (by decide))⟩

theorem lookup_append {κ α : Type} [BEq κ] (l1 l2 : List (κ × α)) (k : κ) :
    (l1 ++ l2).lookup k =
      (match l1.lookup k with
       | some v => some v
       | none => l2.lookup k) := by
  induction l1 with
  | nil => simp [List.lookup]
  | cons p rest ih =>
    obtain ⟨k0, v0⟩ := p
    by_cases h : (k == k0) = true
    · simp [List.lookup, h]
    · simp only [Bool.not_eq_true] at h
      simp [List.lookup, h, ih]

theorem lookup_setKey_self {κ α : Type} [DecidableEq κ] [BEq κ] [LawfulBEq κ]
    (m : List (κ × α)) (k : κ) (v : α) :
    (setKey m k v).lookup k = some v := by
  induction m with
  | nil => simp [setKey, List.lookup]
  | cons p rest ih =>
    obtain ⟨k', v'⟩ := p
    by_cases h : k' = k
    · simp [setKey, h, List.lookup]
    · simp only [setKey, h, if_false, List.lookup]
      have : (k == k') = false := by
        simp [beq_iff_eq]
        exact fun he => h he.symm
      simp [this, ih]

theorem lookup_setKey_ne {κ α : Type} [DecidableEq κ] [BEq κ] [LawfulBEq κ]
    (m : List (κ × α)) (k k' : κ) (v : α)
    (h : k' ≠ k) : (setKey m k v).lookup k' = m.lookup k' := by
  induction m with
  | nil =>
    have : (k' == k) = false := by simp [beq_iff_eq, h]
    simp [setKey, List.lookup, this]
  | cons p rest ih =>
    obtain ⟨k0, v0⟩ := p
    by_cases h0 : k0 = k
    · subst h0
      simp only [setKey, if_pos rfl, List.lookup]
      have : (k' == k0) = false := by simp [beq_iff_eq, h]
      simp [this]
    · simp only [setKey, h0, if_false, List.lookup]
      by_cases h1 : k' = k0
      · simp [h1]
      · have : (k' == k0) = false := by simp [beq_iff_eq, h1]
        simp [this, ih]

theorem mapValuesExcept_lookup {f : Rhs → Except Err Rhs} {m m' : Stmts}
    (h : mapValuesExcept f m = .ok m') :
    ∀ k v, m.lookup k = some v → ∃ v', f v = .ok v' ∧ m'.lookup k = some v' := by
  induction m generalizing m' with
  | nil => intro k v hv; simp [List.lookup] at hv
  | cons p rest ih =>
    intro k v hv
    obtain ⟨k0, v0⟩ := p
    unfold mapValuesExcept at h
    cases hf : f v0 with
    | error e => rw [hf] at h; cases h
    | ok v0' =>
      rw [hf] at h
      cases hrec : mapValuesExcept f rest with
      | error e => rw [hrec] at h; cases h
      | ok rest' =>
        rw [hrec] at h
        cases h
        by_cases hk : k = k0
        · subst hk
          simp only [List.lookup, beq_self_eq_true] at hv ⊢
          cases hv
          exact ⟨v0', hf, rfl⟩
        · have hbeq : (k == k0) = false := by simp [beq_iff_eq, hk]
          simp only [List.lookup, hbeq] at hv ⊢
          exact ih hrec k v hv

theorem freshTmp_not_mem {lhs : String} {statements : Stmts} {tmp : String}
    (h : freshTmp lhs statements = some tmp) : containsKey statements tmp = false := by
  unfold freshTmp at h
  have := List.find?_some h
  simpa using this

/-- C2 (shadowing). When a symbol that already holds a flattened
definition is assigned again (at top level: empty substitution map,
empty suffix, non-builtin name), the flattener picks a temporary name
that is not a key of the statement dict, records the prior definition
under it, substitutes the temporary into the new right-hand side and
into every previously recorded right-hand side (plain expressions and
both components of piecewise piece lists alike, via `subsRhsShadow`),
and only then records the new definition — so no entry is overwritten
without renaming; and on the concrete sequence `x=1`, `x=x+1` the result
binds the temporary `x__tmp` to `1` and `x` to `x__tmp+1`. -/
theorem shadowing_renames_to_fresh_temporary :
    (∀ (usedUnits : List String) (isBuiltin : String → Bool)
       (line : String) (statements : Stmts) (lhs rhs : String)
       (st' : Stmts) (subs' : List (String × String)),
      assignSplit line = [lhs, rhs] →
      isBuiltin (lhs ++ "") = false →
      containsKey statements lhs = true →
      extract_assignment usedUnits isBuiltin line statements [] "" = .ok (st', subs') →
      ∃ tmp oldRhs,
        freshTmp (lhs ++ "") statements = some tmp ∧
        containsKey statements tmp = false ∧
        statements.lookup (lhs ++ "") = some oldRhs ∧
        (∃ oldSub, subsRhsShadow (lhs ++ "") tmp oldRhs = .ok oldSub ∧
          st'.lookup tmp = some oldSub) ∧
        st'.lookup (lhs ++ "") = some (.expr (stripUnitsRhs usedUnits
          (subsVariable (lhs ++ "") tmp (extract_function_calls rhs)))) ∧
        (∀ k v, k ≠ lhs ++ "" → k ≠ tmp → statements.lookup k = some v →
          ∃ v', subsRhsShadow (lhs ++ "") tmp v = .ok v' ∧ st'.lookup k = some v')) ∧
    extract_stmts_block [] (fun _ => false) ["x = 1", "x = x+1"]
      = some (.ok [("x", .expr "x__tmp+1"), ("x__tmp", .expr "1")]) := by
  refine ⟨?_, by rfl⟩
  intro usedUnits isBuiltin line statements lhs rhs st' subs' hsplit hbi hmem hrun
  unfold extract_assignment at hrun
  rw [hsplit] at hrun
  simp only [List.foldl_nil, hbi, Bool.false_eq_true, if_false] at hrun
  have hmem' : containsKey statements (lhs ++ "") = true := by
    have : lhs ++ "" = lhs := by simp
    rw [this]
    exact hmem
  rw [if_pos hmem'] at hrun
  cases hft : freshTmp (lhs ++ "") statements with
  | none =>
    exfalso
    rw [hft] at hrun
    cases hlk : statements.lookup (lhs ++ "") with
    | none =>
      rw [hlk] at hrun
      exact absurd hrun (by simp)
    | some v =>
      rw [hlk] at hrun
      exact absurd hrun (by simp)
  | some tmp =>
    rw [hft] at hrun
    cases hlk : statements.lookup (lhs ++ "") with
    | none =>
      exfalso
      unfold containsKey at hmem'
      rw [hlk] at hmem'
      simp at hmem'
    | some oldRhs =>
      rw [hlk] at hrun
      simp only at hrun
      cases hmap : mapValuesExcept (subsRhsShadow (lhs ++ "") tmp)
          (setKey statements tmp oldRhs) with
      | error e => rw [hmap] at hrun; cases hrun
      | ok st2 =>
        rw [hmap] at hrun
        simp only [if_neg (by simp : ¬("" : String) ≠ "")] at hrun
        have hfresh := freshTmp_not_mem hft
        have htmpne : tmp ≠ lhs ++ "" := by
          intro he
          rw [he] at hfresh
          rw [hfresh] at hmem'
          cases hmem'
        cases hrun
        refine ⟨tmp, oldRhs, rfl, hfresh, rfl, ?_, ?_, ?_⟩
        · have hst1 : (setKey statements tmp oldRhs).lookup tmp = some oldRhs :=
            lookup_setKey_self _ _ _
          obtain ⟨v', hv', hlook⟩ := mapValuesExcept_lookup hmap tmp oldRhs hst1
          exact ⟨v', hv', by rw [lookup_setKey_ne _ _ _ _ htmpne]; exact hlook⟩
        · exact lookup_setKey_self _ _ _
        · intro k v hk hkt hv
          have hst1 : (setKey statements tmp oldRhs).lookup k = some v := by
            rw [lookup_setKey_ne _ _ _ _ hkt]
            exact hv
          obtain ⟨v', hv', hlook⟩ := mapValuesExcept_lookup hmap k v hst1
          exact ⟨v', hv', by rw [lookup_setKey_ne _ _ _ _ hk]; exact hlook⟩

/-- Witness for `shadowing_renames_to_fresh_temporary`: the universal
conjunct applied to the concrete pair `x=1`, `x=x+1`. -/
theorem shadowing_renames_to_fresh_temporary_witness :
    ∃ tmp oldRhs, freshTmp ("x" ++ "") [("x", Rhs.expr "1")] = some tmp ∧
      containsKey [("x", Rhs.expr "1")] tmp = false ∧
      List.lookup ("x" ++ "") [("x", Rhs.expr "1")] = some oldRhs ∧
      (∃ oldSub, subsRhsShadow ("x" ++ "") tmp oldRhs = .ok oldSub ∧
        List.lookup tmp [("x", Rhs.expr "x__tmp+1"), ("x__tmp", Rhs.expr "1")] = some oldSub) ∧
      List.lookup ("x" ++ "") [("x", Rhs.expr "x__tmp+1"), ("x__tmp", Rhs.expr "1")]
        = some (.expr (stripUnitsRhs []
            (subsVariable ("x" ++ "") tmp (extract_function_calls "x+1")))) ∧
      (∀ k v, k ≠ "x" ++ "" → k ≠ tmp → List.lookup k [("x", Rhs.expr "1")] = some v →
        ∃ v', subsRhsShadow ("x" ++ "") tmp v = .ok v' ∧
          List.lookup k [("x", Rhs.expr "x__tmp+1"), ("x__tmp", Rhs.expr "1")] = some v') :=
  shadowing_renames_to_fresh_temporary.1 [] (fun _ => false) "x = x+1"
    [("x", Rhs.expr "1")] "x" "x+1"
    [("x", Rhs.expr "x__tmp+1"), ("x__tmp", Rhs.expr "1")] []
    (by rfl) (by rfl) (by rfl) (by rfl)

/-- C8 counterexample. The claim says a line beginning with `VERBATIM`
is skipped and flattening of the remaining lines proceeds and succeeds;
in fact `_extract_stmts_block` raises `Pype9ImportError` on such a line
(nmodl.py lines 1160-1162), so the block `['VERBATIM foo', 'x = 1']`
produces an error, not a statement map. -/
theorem verbatim_line_raises :
    extract_stmts_block [] (fun _ => false) ["VERBATIM foo", "x = 1"]
      = some (.error (.pype9Import "Cannot parse VERBATIM block")) ∧
    resultIsOk (extract_stmts_block [] (fun _ => false) ["VERBATIM foo", "x = 1"]) = false :=
  ⟨rfl, rfl⟩

/-- C8 amended. In every statement block, a line beginning with `printf`
is skipped and contributes nothing to the resulting statement map
(flattening of the remaining lines proceeds), while a line beginning
with `VERBATIM` aborts the flattening with a fatal `Pype9ImportError`
rather than being skipped. -/
theorem printf_skipped_verbatim_fatal :
    (∀ (t : String) (rest : List String) (statements : Stmts),
      extract_stmts_lines [] (fun _ => false) (("printf" ++ t) :: rest) statements
        = extract_stmts_lines [] (fun _ => false) rest statements) ∧
    (∀ (t : String) (rest : List String) (statements : Stmts),
      extract_stmts_lines [] (fun _ => false) (("VERBATIM" ++ t) :: rest) statements
        = some (.error (.pype9Import "Cannot parse VERBATIM block"))) ∧
    extract_stmts_block [] (fun _ => false) ["printf(\"hi\")", "y = 2"]
      = some (.ok [("y", .expr "2")]) := by
  refine ⟨?_, ?_, by rfl⟩
  · intro t rest statements
    obtain ⟨td⟩ := t
    show extract_stmts_lines [] (fun _ => false)
      ((⟨'p' :: 'r' :: 'i' :: 'n' :: 't' :: 'f' :: td⟩ : String) :: rest) statements = _
    have h1 : strStarts ⟨'p' :: 'r' :: 'i' :: 'n' :: 't' :: 'f' :: td⟩ "TABLE" = false := rfl
    have h2 : strStarts ⟨'p' :: 'r' :: 'i' :: 'n' :: 't' :: 'f' :: td⟩ "LOCAL" = false := rfl
    have h3 : ((⟨'p' :: 'r' :: 'i' :: 'n' :: 't' :: 'f' :: td⟩ : String) = "UNITSON")
        = False := by
      simp [String.ext_iff]
    have h4 : ((⟨'p' :: 'r' :: 'i' :: 'n' :: 't' :: 'f' :: td⟩ : String) = "UNITSOFF")
        = False := by
      simp [String.ext_iff]
    have h5 : strStarts ⟨'p' :: 'r' :: 'i' :: 'n' :: 't' :: 'f' :: td⟩ "VERBATIM" = false := rfl
    have h6 : strStarts ⟨'p' :: 'r' :: 'i' :: 'n' :: 't' :: 'f' :: td⟩ "printf" = true := rfl
    rw [extract_stmts_lines.eq_def]
    dsimp only
    simp only [h1, h2, h3, h4, h5, h6, decide_False, Bool.or_false, Bool.false_or,
      Bool.false_eq_true, if_false, if_true]
  · intro t rest statements
    obtain ⟨td⟩ := t
    show extract_stmts_lines [] (fun _ => false)
      ((⟨'V' :: 'E' :: 'R' :: 'B' :: 'A' :: 'T' :: 'I' :: 'M' :: td⟩ : String) :: rest) statements = _
    have h1 : strStarts ⟨'V' :: 'E' :: 'R' :: 'B' :: 'A' :: 'T' :: 'I' :: 'M' :: td⟩ "TABLE" = false := rfl
    have h2 : strStarts ⟨'V' :: 'E' :: 'R' :: 'B' :: 'A' :: 'T' :: 'I' :: 'M' :: td⟩ "LOCAL" = false := rfl
    have h3 : ((⟨'V' :: 'E' :: 'R' :: 'B' :: 'A' :: 'T' :: 'I' :: 'M' :: td⟩ : String) = "UNITSON")
        = False := by
      simp [String.ext_iff]
    have h4 : ((⟨'V' :: 'E' :: 'R' :: 'B' :: 'A' :: 'T' :: 'I' :: 'M' :: td⟩ : String) = "UNITSOFF")
        = False := by
      simp [String.ext_iff]
    have h5 : strStarts ⟨'V' :: 'E' :: 'R' :: 'B' :: 'A' :: 'T' :: 'I' :: 'M' :: td⟩ "VERBATIM" = true := rfl
    rw [extract_stmts_lines.eq_def]
    dsimp only
    simp only [h1, h2, h3, h4, h5, decide_False, Bool.or_false, Bool.false_or,
      Bool.false_eq_true, if_false, if_true]

/-- Witness for `printf_skipped_verbatim_fatal` at a concrete block. -/
theorem printf_skipped_verbatim_fatal_witness :
    extract_stmts_lines [] (fun _ => false) (("printf" ++ "(t)") :: ["y = 2"]) []
      = extract_stmts_lines [] (fun _ => false) ["y = 2"] [] :=
  printf_skipped_verbatim_fatal.1 "(t)" ["y = 2"] []

/-- C9 counterexample. The claim names the mangled symbol `x__elem_i`;
the replacement template is `\1__elem\2` (nmodl.py line 1170), which
concatenates the digits directly: `x[3]` becomes `x__elem3`, not
`x__elem_3`. -/
theorem getitem_mangles_without_underscore :
    getitemSubStr "x[3]" = "x__elem3" ∧ getitemSubStr "x[3]" ≠ "x__elem_3" :=
  ⟨rfl, by decide⟩

/-- C9 amended. Every array-indexing expression `name[digits]` with a
numeric literal index is rewritten, before parsing, to the mangled
scalar symbol formed by concatenating the name, `__elem` and the index
digits (each distinct index becoming an independent scalar symbol, with
no bracket construct surviving); concretely `y = x[3] + z[10]` becomes
`y = x__elem3 + z__elem10` and the flattened statement map of
`y = x[3] + 2` binds `y` to `x__elem3 + 2`. -/
theorem array_index_mangled :
    (∀ name ds : List Char, name ≠ [] → (∀ c ∈ name, isWordChar c) →
      ds ≠ [] → (∀ c ∈ ds, c.isDigit) →
      getitemSub (name ++ '[' :: (ds ++ [']'])) = name ++ ("__elem".data ++ ds)) ∧
    getitemSubStr "y = x[3] + z[10]" = "y = x__elem3 + z__elem10" ∧
    extract_stmts_block [] (fun _ => false) ["y = x[3] + 2"]
      = some (.ok [("y", .expr "x__elem3 + 2")]) :=
  ⟨getitemSub_rewrites, rfl, rfl⟩

/-- Witness for `array_index_mangled` at the concrete name `x` and
index `3`. -/
theorem array_index_mangled_witness :
    getitemSub ("x".data ++ '[' :: ("3".data ++ [']']))
      = "x".data ++ ("__elem".data ++ "3".data) :=
  array_index_mangled.1 "x".data "3".data (by decide) (by decide) (by decide) (by decide)

/-- C5 counterexample. In the canonical scenario (`net_send(5, 1)` under
flag 0, flag-1 handler), the unique flag that is the *target* of the
delayed self-scheduled `net_send` is `1` — yet the regime flags for
which `_create_regimes` creates regimes are `[-1, 0]`: the non-default
regime is created for the *origin* flag `0` (whose handler contains the
`net_send`, nmodl.py lines 438-442), not for the target flag `1` as the
claim states. -/
theorem regime_created_for_origin_flag_not_target :
    targetsOfDelayed netsendExampleReceives = [1] ∧
    regimeFlagsOf netsendExampleReceives = [-1, 0] ∧
    ((regimeFlagsOf netsendExampleReceives).contains 1) = false :=
  ⟨rfl, rfl, rfl⟩

set_option maxRecDepth 4000 in
/-- C5 amended. For every NET_RECEIVE flag whose *handler contains* a
delayed self-scheduled `net_send` (the origin), regime synthesis creates
a distinct non-default regime for that origin flag; the extraction
synthesizes a `last_transition` state variable of time dimension if
absent and sets `last_transition := t` in the handler's assignments
whenever its `net_send` targets a non-default flag (so the assignment
runs on every transition generated from that handler — in particular on
the one entering the non-default regime); and each origin's regime
receives a condition-triggered transition with the timed guard
`t > (last_transition + delay)`. Concretely, `net_send(5, 1)` under
flag 0 with a flag-1 handler yields exactly two regimes: the default
`regime_0`, whose `incoming_spike` `OnEvent` (carrying
`last_transition := t`) enters `regime_1`, and `regime_1`, whose
`OnCondition` with trigger `t > (last_transition + 5)` — referencing the
synthesized `last_transition` and the constant `5` — returns to
`regime_0`. -/
theorem delayed_net_send_regime_synthesis :
    (netsendExampleLT
      = ([("m", none), ("last_transition", some .time)],
         [("last_transition", ⟨"last_transition", "t"⟩)])) ∧
    (createRegimes netsendExampleState = .ok
      ({ netsendExampleState with eventPorts := ["incoming_spike"] },
       [("regime_0", ⟨"regime_0", [],
          [.onEvent ⟨"incoming_spike", [⟨"last_transition", "t"⟩], [], "regime_1"⟩]⟩),
        ("regime_1", ⟨"regime_1", [],
          [.onCondition ⟨"t > (last_transition + 5)", [⟨"m", "1"⟩], [],
            "regime_0"⟩]⟩)])) ∧
    (∀ (nrs : List (Int × NetReceive)) (flag : Int) (r : NetReceive),
      (flag, r) ∈ nrs → r.delay ≠ none → flag ∈ regimeFlagsOf nrs) ∧
    (∀ (target : Int) (sv : List (String × Option Dimension))
       (asgn : List (String × StateAssignT)), target ≠ -1 →
      containsKey (addLastTransition target sv asgn).1 "last_transition" = true ∧
      ((addLastTransition target sv asgn).2.lookup "last_transition"
        = some ⟨"last_transition", "t"⟩)) := by
  refine ⟨rfl, rfl, ?_, ?_⟩
  · intro nrs flag r hmem hdelay
    unfold regimeFlagsOf
    refine List.mem_cons_of_mem _ ?_
    refine List.mem_map.mpr ⟨(flag, r), ?_, rfl⟩
    refine List.mem_filter.mpr ⟨hmem, ?_⟩
    simpa using hdelay
  · intro target sv asgn htgt
    unfold addLastTransition
    rw [if_pos htgt]
    constructor
    · by_cases hc : containsKey sv "last_transition" = true
      · simp [hc]
      · simp only [Bool.not_eq_true] at hc
        simp only [hc, Bool.false_eq_true, if_false]
        unfold containsKey
        rw [lookup_append]
        cases hlk : sv.lookup "last_transition" with
        | some v =>
          unfold containsKey at hc
          rw [hlk] at hc
          cases hc
        | none => simp [List.lookup]
    · exact lookup_setKey_self _ _ _

/-- Witness for `delayed_net_send_regime_synthesis`: its universally
quantified conjuncts applied at the canonical scenario. -/
theorem delayed_net_send_regime_synthesis_witness :
    (0 : Int) ∈ regimeFlagsOf netsendExampleReceives ∧
    containsKey (addLastTransition 1 [("m", none)] []).1 "last_transition" = true :=
  ⟨delayed_net_send_regime_synthesis.2.2.1 netsendExampleReceives 0
      ⟨1, some "5", [], netsendExampleLT.2, [], []⟩ (by simp [netsendExampleReceives])
      (by simp),
   (delayed_net_send_regime_synthesis.2.2.2 1 [("m", none)] [] (by decide)).1⟩

set_option maxRecDepth 4000 in
/-- C7. `_create_regimes` raises `NotImplementedError` whenever more
than one DERIVATIVE block was parsed (`regime_parts` holds one entry per
DERIVATIVE block, nmodl.py lines 889-907 and 405-409), rather than
silently approximating a multi-regime model; with zero or one DERIVATIVE
block (and no event handlers or initial flag) the synthesis succeeds and
every produced regime carries exactly the (possibly empty)
time-derivative list of that block. -/
theorem multiple_derivative_blocks_not_implemented :
    (∀ st : SynthState, st.regimeParts.length > 1 →
      createRegimes st = .error .notImplemented) ∧
    (∀ (rp : List (String × List TimeDeriv)) (tg : List (Int × List String))
       (ba : List (String × String)) (sv : List (String × Option Dimension))
       (dm : List (String × Dimension)) (al : List (String × String))
       (ap ep : List String) (ist : List (String × InitVal)) (wn : List String),
      rp.length ≤ 1 →
      createRegimes ⟨rp, none, [], tg, ba, sv, dm, al, ap, ep, ist, wn⟩
        = .ok (⟨rp, none, [], tg, ba, sv, dm, al, ap, ep, ist, wn⟩,
               [("regime_0",
                 ⟨"regime_0", (rp.head?.map Prod.snd).getD [], []⟩)])) := by
  constructor
  · intro st h
    unfold createRegimes
    rw [if_pos h]
    rfl
  · intro rp tg ba sv dm al ap ep ist wn hlen
    match rp with
    | [] => rfl
    | [p] => rfl
    | p :: q :: rest => simp at hlen

set_option maxRecDepth 4000 in
/-- Witness for `multiple_derivative_blocks_not_implemented`: two
DERIVATIVE blocks make the synthesis raise; none succeed with an empty
default regime. -/
theorem multiple_derivative_blocks_not_implemented_witness :
    createRegimes twoDerivativeState = .error .notImplemented ∧
    createRegimes ⟨[], none, [], [], [], [], [], [], [], [], [], []⟩
      = .ok (⟨[], none, [], [], [], [], [], [], [], [], [], []⟩,
             [("regime_0", ⟨"regime_0", (([] : List (String × List TimeDeriv)).head?.map Prod.snd).getD [], []⟩)]) :=
  ⟨multiple_derivative_blocks_not_implemented.1 twoDerivativeState (by decide),
   multiple_derivative_blocks_not_implemented.2 [] [] [] [] [] [] [] [] [] []
     (by decide)⟩

end NMODL
